import Mathlib

/-!
Verification development for the watchexec core: the tagged event filterer
(`crates/filterer/tagged/src/filterer.rs`) and the outcome worker
(`crates/lib/src/action/outcome_worker.rs`), with the runtime error taxonomy
(`crates/lib/src/error/runtime.rs`).

Paths are modelled as lists of components of an absolute path (the root is
implicit).  External collaborators (the regex engine, the single-pattern glob
engine, and the `ignore` crate's compiled gitignore matchers) are parameters
of the model (`Externals`, `Gitignore`): the code under scrutiny only consumes
their results.
-/

namespace WXM

/-- An absolute path, as its list of components (`/a/b/c` is `["a","b","c"]`). -/
def PathM := List String
deriving DecidableEq, Repr

instance : Inhabited PathM := ⟨([] : List String)⟩

/-- `Path::strip_prefix`: `stripPrefixP p base` is the suffix of `p` after
`base`, or `none` when `base` is not a prefix of `p`. -/
def stripPrefixP : PathM → PathM → Option PathM
  | p, [] => some p
  | [], _ :: _ => none
  | a :: p, b :: base => if a = b then stripPrefixP p base else none

/-- `Path::to_string_lossy` on a stripped (relative) path. -/
def joinPath (p : PathM) : String :=
  String.intercalate "/" p

/-- The filter dimensions (`Matcher` in the tagged filterer crate). -/
inductive Matcher
  | tag | path | fileType | fileEventKind | source | process | signal
  | processCompletion | priority
deriving DecidableEq, Repr

/-- `watchexec_events::FileType`. -/
inductive FileType
  | dir | file | symlink | other
deriving DecidableEq, Repr

/-- `Display` rendering of a `FileType`. -/
def FileType.render : FileType → String
  | .dir => "dir"
  | .file => "file"
  | .symlink => "symlink"
  | .other => "other"

/-- `watchexec_signals::Signal`. -/
inductive SignalM
  | hangup | forceStop | interrupt | quit | terminate | user1 | user2
  | custom (n : Int)
deriving DecidableEq, Repr

/-- `watchexec_events::ProcessEnd` (payloads as integers). -/
inductive ProcessEnd
  | success
  | exitError (n : Int)
  | exitSignal (sig : SignalM)
  | exitStop (n : Int)
  | exception (n : Int)
  | continued
deriving DecidableEq, Repr

/-- An event tag (`watchexec_events::Tag`); `other` stands for the opaque
further variants the spec mentions. -/
inductive Tag
  | path (p : PathM) (fileType : Option FileType)
  | fileEventKind (debugStr : String)
  | source (src : String)
  | process (pid : Nat)
  | signal (sig : SignalM)
  | processCompletion (ending : Option ProcessEnd)
  | other (name : String)
deriving DecidableEq, Repr

/-- Modelled from the spec: `match on the discriminant name of the tag
(e.g. "path", "signal")` — the `Tag::discriminant_name` used by the `Tag`
matcher arm of `match_tag` lives outside `src/`. -/
def Tag.discriminantName : Tag → String
  | .path _ _ => "path"
  | .fileEventKind _ => "fileeventkind"
  | .source _ => "source"
  | .process _ => "process"
  | .signal _ => "signal"
  | .processCompletion _ => "processcompletion"
  | .other _ => "other"

/-- `watchexec_events::Priority`. -/
inductive Priority
  | low | normal | high | urgent
deriving DecidableEq, Repr

/-- An event: an immutable record carrying a set of tags. -/
structure Event where
  tags : List Tag
deriving DecidableEq, Repr

/-- Filter operators (`Op`). -/
inductive Op
  | auto | equal | notEqual | regex | notRegex | inSet | outSet | glob | notGlob
deriving DecidableEq, Repr

/-- Filter patterns (`Pattern`): exact string, regex, glob, set of strings, or
absent (existence check).  Regex/glob sources are kept as their pattern text;
their engines are external (see `Externals`). -/
inductive Pattern
  | exact (s : String)
  | regex (r : String)
  | glob (g : String)
  | set (xs : List String)
  | absent
deriving DecidableEq, Repr

/-- A filter record `(on, op, pat, in_path?, negate)`. -/
structure Filter where
  onM : Matcher  -- the source field is named `on`, a Lean keyword
  op : Op
  pat : Pattern
  inPath : Option PathM
  negate : Bool
deriving DecidableEq, Repr

/-- Three-valued result of a compiled gitignore-style matcher
(`ignore::Match`), carrying the matched glob's origin `from()`. -/
inductive GMatch
  | noMatch
  | ignoreM (src : Option PathM)
  | whitelist (src : Option PathM)
deriving DecidableEq, Repr

/-- A compiled gitignore-style matcher (`ignore::gitignore::Gitignore`),
abstracted to its two query methods: `matched` and
`matched_path_or_any_parents`, each on a path and an `is_dir` flag. -/
structure Gitignore where
  matched : PathM → Bool → GMatch
  matchedParents : PathM → Bool → GMatch

/-- External collaborators: the regex engine, the single-pattern glob engine,
and the gitignore builder (`GitignoreBuilder::new(origin)` + `add_line(scope,
glob)` lines + `build()`). -/
structure Externals where
  regexMatch : String → String → Bool
  globMatchOne : String → String → Bool
  buildGitignore : PathM → List (Option PathM × String) → Gitignore

/-- Modelled from the spec (§4.2): `Filter::matches(subject)` lives outside
`src/`.  Dispatch on `op` (Auto chooses based on the pattern kind); the
`Not` variants invert the raw result; an absent pattern is an existence
check; operator/pattern combinations the spec does not describe yield
`false`.  The `negate` flag is not applied here. -/
def Filter.matches (E : Externals) (f : Filter) (subject : String) : Bool :=
  match f.op, f.pat with
  | _, .absent => true
  | .auto, .exact s => subject == s
  | .auto, .regex r => E.regexMatch r subject
  | .auto, .set xs => xs.contains subject
  | .auto, .glob g => E.globMatchOne g subject
  | .equal, .exact s => subject == s
  | .notEqual, .exact s => !(subject == s)
  | .regex, .regex r => E.regexMatch r subject
  | .notRegex, .regex r => !(E.regexMatch r subject)
  | .inSet, .set xs => xs.contains subject
  | .outSet, .set xs => !(xs.contains subject)
  | .glob, .glob g => E.globMatchOne g subject
  | .notGlob, .glob g => !(E.globMatchOne g subject)
  | _, _ => false

/-- `sig_match` (filterer.rs lines 325–337): canonical short-name/number
rendering of a signal; an explicit `Custom(n)` keeps its number. -/
def sigMatch : SignalM → String × Int
  | .hangup => ("HUP", 1)
  | .custom 1 => ("HUP", 1)
  | .forceStop => ("KILL", 9)
  | .custom 9 => ("KILL", 9)
  | .interrupt => ("INT", 2)
  | .custom 2 => ("INT", 2)
  | .quit => ("QUIT", 3)
  | .custom 3 => ("QUIT", 3)
  | .terminate => ("TERM", 15)
  | .custom 15 => ("TERM", 15)
  | .user1 => ("USR1", 10)
  | .custom 10 => ("USR1", 10)
  | .user2 => ("USR2", 12)
  | .custom 12 => ("USR2", 12)
  | .custom n => ("UNK", n)

/-- Upper-case hexadecimal digits. -/
def hexDigit (n : Nat) : Char :=
  "0123456789ABCDEF".toList.getD n '0'

/-- Upper-case hexadecimal rendering of a natural number. -/
def natHex (n : Nat) : List Char :=
  if _h : n < 16 then [hexDigit n]
  else natHex (n / 16) ++ [hexDigit (n % 16)]
termination_by n
decreasing_by
  exact Nat.div_lt_self (by omega) (by omega)

/-- Rust's `{:X}` on a 32-bit integer (two's complement for negatives). -/
def hexUpper (n : Int) : String :=
  ⟨natHex ((n % (2 ^ 32 : Nat)).toNat)⟩

/-- Modelled from the spec (§3): which matchers a tag maps to
(`Matcher::from_tag` lives outside `src/`).  Every concrete tag also maps to
the meta-dimension `Tag`; a `Path` tag with a file type maps to both `Path`
and `FileType`. -/
def Matcher.fromTag : Tag → List Matcher
  | .path _ none => [.tag, .path]
  | .path _ (some _) => [.tag, .path, .fileType]
  | .fileEventKind _ => [.tag, .fileEventKind]
  | .source _ => [.tag, .source]
  | .process _ => [.tag, .process]
  | .signal _ => [.tag, .signal]
  | .processCompletion _ => [.tag, .processCompletion]
  | .other _ => []

/-- The tagged filterer's state.  The swap-lock cells are modelled by the
fields themselves (an API call producing a new state is the publication);
the ignore sub-filterer (external crate) is its `check_event` predicate. -/
structure TaggedFilterer where
  origin : PathM
  workdir : PathM
  filters : Matcher → Option (List Filter)
  ignoreF : Event → Priority → Bool
  globCompiled : Option Gitignore
  notGlobCompiled : Option Gitignore

/-- Result of `check`: `panicked` models reaching `unreachable!`. -/
inductive CheckResult
  | ok (b : Bool)
  | panicked
deriving DecidableEq, Repr

/-- The priority gate's subject string (filterer.rs lines 70–75); `none` for
`Urgent`, whose arm is `unreachable!("urgent by-passes filtering")`. -/
def prioritySubject : Priority → Option String
  | .low => some "low"
  | .normal => some "normal"
  | .high => some "high"
  | .urgent => none

/-- The negate-aware filter reducer of the priority gate (filterer.rs lines
67–88): a negated filter that applies sets the accumulator to `true` and
breaks; a negated filter that does not apply is ignored; any other filter is
AND-ed into the accumulator. -/
def reduceFilters (E : Externals) (fls : List Filter) (subject : String)
    (acc : Bool) : Bool :=
  match fls with
  | [] => acc
  | f :: rest =>
    let applies := f.matches E subject
    if f.negate then
      if applies then true
      else reduceFilters E rest subject acc
    else reduceFilters E rest subject (acc && applies)

/-- The priority gate (filterer.rs lines 62–97) over a non-absent filter
list: `none` models the panic (the `Urgent` subject arm is evaluated inside
the loop, so it is reached only when the list is non-empty). -/
def priorityGate (E : Externals) (fls : List Filter) (pri : Priority) :
    Option Bool :=
  match fls with
  | [] => some true
  | _ :: _ =>
    match prioritySubject pri with
    | none => none
    | some subj => some (reduceFilters E fls subj true)

/-- Path resolution of the `(Tag::Path, Matcher::Path)` arm of `match_tag`
(filterer.rs lines 342–354): strip the first matching prefix among
`filter.in_path` (if set: only it is tried), the workdir, the origin and the
root; `none` when `in_path` is set but is not a prefix of the path. -/
def resolvePathTag (tf : TaggedFilterer) (f : Filter) (p : PathM) :
    Option PathM :=
  match f.inPath with
  | some ctx => stripPrefixP p ctx
  | none =>
    match stripPrefixP p tf.workdir with
    | some suffix => some suffix
    | none =>
      match stripPrefixP p tf.origin with
      | some suffix => some suffix
      | none => some p

/-- `TaggedFilterer::match_tag` (filterer.rs lines 322–403): `some b` when
the filter applies to this (tag, matcher) pair with result `b`, `none` when a
precondition is not met and the filter is skipped. -/
def TaggedFilterer.matchTag (E : Externals) (tf : TaggedFilterer) (f : Filter)
    (tag : Tag) : Option Bool :=
  match tag, f.onM with
  | tag, .tag => some (f.matches E tag.discriminantName)
  | .path p _, .path =>
    match resolvePathTag tf f p with
    | none => none
    | some resolved =>
      match f.op with
      | .glob => none
      | .notGlob => none
      | _ => some (f.matches E (joinPath resolved))
  | .path _ (some ft), .fileType => some (f.matches E ft.render)
  | .fileEventKind k, .fileEventKind => some (f.matches E k)
  | .source s, .source => some (f.matches E s)
  | .process pid, .process => some (f.matches E (toString pid))
  | .signal sig, .signal =>
    some (f.matches E (sigMatch sig).1
      || f.matches E ("SIG" ++ (sigMatch sig).1)
      || f.matches E (toString (sigMatch sig).2))
  | .processCompletion ope, .processCompletion =>
    match ope with
    | none => some (f.matches E "_")
    | some .success => some (f.matches E "success")
    | some (.exitError n) => some (f.matches E ("error(" ++ toString n ++ ")"))
    | some (.exitSignal sig) =>
      some (f.matches E ("signal(" ++ (sigMatch sig).1 ++ ")")
        || f.matches E ("signal(SIG" ++ (sigMatch sig).1 ++ ")")
        || f.matches E ("signal(" ++ toString (sigMatch sig).2 ++ ")"))
    | some (.exitStop n) => some (f.matches E ("stop(" ++ toString n ++ ")"))
    | some (.exception n) => some (f.matches E ("exception(" ++ hexUpper n ++ ")"))
    | some .continued => some (f.matches E "continued")
  | _, _ => none

/-- `glob.from().map_or(true, |f| path.strip_prefix(f).is_ok())`: an
`Ignore` match takes effect only when its origin is absent or is an ancestor
of the path. -/
def scopeOk (src : Option PathM) (p : PathM) : Bool :=
  match src with
  | none => true
  | some f => (stripPrefixP p f).isSome

/-- The Glob-polarity block of `check` (filterer.rs lines 138–174): how one
three-valued result updates `tag_match`. -/
def globPolarityStep (p : PathM) (r : GMatch) (t : Bool) : Bool :=
  match r with
  | .noMatch => t && false
  | .ignoreM src => if scopeOk src p then t && true else t
  | .whitelist _ => t

/-- The NotGlob-polarity block of `check` (filterer.rs lines 176–213): note
that a `Whitelist` result assigns `tag_match = true` outright. -/
def notGlobPolarityStep (p : PathM) (r : GMatch) (t : Bool) : Bool :=
  match r with
  | .noMatch => t && true
  | .ignoreM src => if scopeOk src p then t && false else t
  | .whitelist _ => true

/-- Querying a compiled matcher (filterer.rs lines 144–150 and 182–188):
paths inside the origin are matched together with their ancestors. -/
def queryGitignore (origin : PathM) (g : Gitignore) (p : PathM)
    (isDir : Bool) : GMatch :=
  if (stripPrefixP p origin).isSome then g.matchedParents p isDir
  else g.matched p isDir

/-- The initial `tag_match` for a Path tag at the Path matcher (filterer.rs
lines 133–214): start at `true`, run the Glob block, then the NotGlob
block. -/
def initTagMatch (origin : PathM) (gc ngc : Option Gitignore) (p : PathM)
    (isDir : Bool) : Bool :=
  let t1 :=
    match gc with
    | none => true
    | some igs => globPolarityStep p (queryGitignore origin igs p isDir) true
  match ngc with
  | none => t1
  | some ngs => notGlobPolarityStep p (queryGitignore origin ngs p isDir) t1

/-- The filters stripped from the residual list (filterer.rs lines 216–234):
Path-glob filters on a Path tag at the Path matcher were already handled by
the compiled matchers. -/
def isHandledGlobFilter (tag : Tag) (m : Matcher) (f : Filter) : Bool :=
  match tag, m, f.onM, f.op, f.pat with
  | .path _ _, .path, .path, .glob, .glob _ => true
  | .path _ _, .path, .path, .notGlob, .glob _ => true
  | _, _, _, _, _ => false

/-- The per-tag filter reducer (filterer.rs lines 242–258): `match_tag`
results of `none` are skipped; `some` results feed the same negate-aware
reducer as the priority gate, starting from the accumulated `tag_match`. -/
def reduceTagFilters (E : Externals) (tf : TaggedFilterer) (fls : List Filter)
    (tag : Tag) (acc : Bool) : Bool :=
  match fls with
  | [] => acc
  | f :: rest =>
    match tf.matchTag E f tag with
    | none => reduceTagFilters E tf rest tag acc
    | some app =>
      if f.negate then
        if app then true
        else reduceTagFilters E tf rest tag acc
      else reduceTagFilters E tf rest tag (acc && app)

/-- One matcher's verdict for one tag (filterer.rs lines 121–269): `true`
means this matcher does not fail the event. -/
def checkMatcher (E : Externals) (tf : TaggedFilterer) (tag : Tag)
    (m : Matcher) : Bool :=
  match tf.filters m with
  | none => true
  | some tagFilters =>
    if tagFilters.isEmpty then true
    else
      let t0 :=
        match m, tag with
        | .path, .path p ft =>
          let isDir := match ft with | some .dir => true | _ => false
          initTagMatch tf.origin tf.globCompiled tf.notGlobCompiled p isDir
        | _, _ => true
      let residual := tagFilters.filter (fun f => !isHandledGlobFilter tag m f)
      if residual.isEmpty && t0 then true
      else reduceTagFilters E tf residual tag t0

/-- All matchers of one tag, fail-fast. -/
def checkMatchers (E : Externals) (tf : TaggedFilterer) (tag : Tag) :
    List Matcher → Bool
  | [] => true
  | m :: ms => checkMatcher E tf tag m && checkMatchers E tf tag ms

/-- All tags of the event, fail-fast (filterer.rs lines 116–270). -/
def checkTags (E : Externals) (tf : TaggedFilterer) : List Tag → Bool
  | [] => true
  | t :: ts => checkMatchers E tf t (Matcher.fromTag t) && checkTags E tf ts

/-- The nine matcher dimensions (for `HashMap::is_empty`). -/
def allMatchers : List Matcher :=
  [.tag, .path, .fileType, .fileEventKind, .source, .process, .signal,
   .processCompletion, .priority]

/-- `self.filters.borrow().is_empty()`: the filter map has no entries. -/
def TaggedFilterer.noFilters (tf : TaggedFilterer) : Bool :=
  allMatchers.all (fun m => (tf.filters m).isNone)

/-- `TaggedFilterer::check` (filterer.rs lines 58–274): priority gate, then
the ignore sub-filterer, then the empty-filters shortcut, then per-tag
evaluation. -/
def check (E : Externals) (tf : TaggedFilterer) (ev : Event) (pri : Priority) :
    CheckResult :=
  let priRes :=
    match tf.filters .priority with
    | some fls => priorityGate E fls pri
    | none => some true
  match priRes with
  | none => .panicked
  | some false => .ok false
  | some true =>
    if !(tf.ignoreF ev pri) then .ok false
    else if tf.noFilters then .ok true
    else .ok (checkTags E tf ev.tags)

/-- Modelled from the spec (§4.2): `Filter::canonicalised` lives outside
`src/` — for glob operators, compile and freeze the pattern (an exact
pattern's text becomes the glob source); other filters are unchanged. -/
def canonicalised (f : Filter) : Filter :=
  match f.op, f.pat with
  | .glob, .exact s => { f with pat := .glob s }
  | .notGlob, .exact s => { f with pat := .glob s }
  | _, _ => f

/-- `fs.entry(filter.on).or_default().push(filter)` on the filter map. -/
def insertFilter (fs : Matcher → Option (List Filter)) (f : Filter) :
    Matcher → Option (List Filter) :=
  fun m => if m = f.onM then some ((fs f.onM).getD [] ++ [f]) else fs m

/-- Swap the compiled matcher of one polarity. -/
def setCompiled (tf : TaggedFilterer) (op : Op) (v : Option Gitignore) :
    TaggedFilterer :=
  match op with
  | .glob => { tf with globCompiled := v }
  | .notGlob => { tf with notGlobCompiled := v }
  | _ => tf

/-- `TaggedFilterer::recompile_globs` (filterer.rs lines 461–507): with no
Path filters at all, erase the compiled matcher; otherwise rebuild it from
every Path filter of this polarity (negated filters contribute a `!`-prefixed
line, scoped by their `in_path`). -/
def recompileGlobs (E : Externals) (tf : TaggedFilterer) (opFilter : Op) :
    TaggedFilterer :=
  match tf.filters .path with
  | none => setCompiled tf opFilter none
  | some fs =>
    let globs := fs.filter (fun f => decide (f.op = opFilter))
    let lines := globs.filterMap (fun f =>
      match f.pat with
      | .glob g => some (f.inPath, if f.negate then "!" ++ g else g)
      | _ => none)
    setCompiled tf opFilter (some (E.buildGitignore tf.origin lines))

/-- `TaggedFilterer::add_filters` (filterer.rs lines 414–459): canonicalise,
insert under each filter's matcher, then recompile the polarities that saw a
glob-operation filter. -/
def TaggedFilterer.addFilters (E : Externals) (tf : TaggedFilterer)
    (newFilters : List Filter) : TaggedFilterer :=
  let recompileG := newFilters.any (fun f => decide (f.op = Op.glob))
  let recompileNG := newFilters.any (fun f => decide (f.op = Op.notGlob))
  let canon := newFilters.map canonicalised
  let tf1 := { tf with filters := canon.foldl insertFilter tf.filters }
  let tf2 := if recompileG then recompileGlobs E tf1 .glob else tf1
  if recompileNG then recompileGlobs E tf2 .notGlob else tf2

/-- `TaggedFilterer::clear_filters` (filterer.rs lines 526–539): reset the
filter map, then recompile both polarities (which erases both compiled
matchers, as the map has no Path entry). -/
def TaggedFilterer.clearFilters (E : Externals) (tf : TaggedFilterer) :
    TaggedFilterer :=
  let tf1 := { tf with filters := fun _ => none }
  recompileGlobs E (recompileGlobs E tf1 .glob) .notGlob

/-!
## The outcome worker

`OutcomeWorker::apply` is modelled as a trace interpreter.  The shared
generation counter is read at discrete points; `WorkerCtx.reads i` is the
value observed by the `i`-th read of this worker's run, and `WSt.idx` counts
the reads performed so far.  Results of the external sub-operations that can
fail (`wait`, `Supervisor::spawn`, the screen clears) and the winner of a
`select` race are oracles in the context.  Side effects are returned as a
list of `(read index at emission, effect)` pairs.
-/

/-- `watchexec::error::RuntimeError` (runtime.rs): payloads of external types
are rendered as strings. -/
inductive RuntimeError
  | exit
  | external (msg : String)
  | ioError (about : String) (err : String)
  | fsWatcher (kind : String) (err : String)
  | keyboardWatcher (err : String)
  | internalSupervisor (msg : String)
  | eventChannelSend (ctx : String) (err : String)
  | eventChannelTrySend (ctx : String) (err : String)
  | handler (ctx : String) (err : String)
  | handlerLockHeld (which : String)
  | process (err : String)
  | processDeadOnArrival
  | unsupportedSignal (sig : SignalM)
  | noCommands
  | commandShellEmptyCommand
  | commandShellEmptyShell
  | clearscreen (err : String)
  | ignoreFiles (err : String)
  | filterer (kind : String) (err : String)
deriving DecidableEq, Repr

/-- The recursive outcome expression (`action::Outcome`); handlers are
identified by name. -/
inductive Outcome
  | doNothing
  | exit
  | stop
  | start
  | startHook (h : String)
  | wait
  | signal (sig : SignalM)
  | sleep (millis : Nat)
  | clear
  | reset
  | destroy
  | hook (h : String)
  | ifRunning (whenRunning otherwise : Outcome)
  | both (one two : Outcome)
  | race (one two : Outcome)
deriving DecidableEq, Repr

/-- Side-effecting sub-operations invoked by `apply`. -/
inductive Eff
  | isSome
  | kill
  | wait
  | dropInner
  | spawnSup (withHook : Bool)
  | replaceProc
  | signal (sig : SignalM)
  | sleep (millis : Nat)
  | clearScreen
  | resetScreen (variant : Nat)
  | hook (h : String)
  | sendError (e : RuntimeError)
deriving DecidableEq, Repr

/-- Result of a run of `apply`: success, a runtime error, or a panic
(`todo!("implement destroy")`). -/
inductive AResult
  | ok
  | err (e : RuntimeError)
  | panicked
deriving DecidableEq, Repr

/-- The worker's environment: its generation, the sequence of values observed
by successive reads of the shared counter, and oracles for fallible external
sub-operations and for which limb of a `select` finishes first. -/
structure WorkerCtx where
  gen : Nat
  reads : Nat → Nat
  waitRes : Nat → Option RuntimeError
  spawnRes : Nat → Option RuntimeError
  clearRes : Nat → Option RuntimeError
  resetRes : Nat → Option RuntimeError
  race : Nat → Bool

/-- The worker-visible state: reads performed so far and whether the process
holder currently holds a supervisor. -/
structure WSt where
  idx : Nat
  running : Bool
deriving DecidableEq, Repr

/-- `notry!` around a primitive awaited sub-operation (outcome_worker.rs
lines 89–112): compare the counter before and after awaiting; on mismatch
abort (first component `false`); `upd` is the operation's effect on the
process holder.  The emitted effect is tagged with the pre-check's read
index. -/
def notryPrim (c : WorkerCtx) (e : Eff) (upd : Bool → Bool) (s : WSt) :
    Bool × WSt × List (Nat × Eff) :=
  if c.reads s.idx = c.gen then
    if c.reads (s.idx + 1) = c.gen then
      (true, ⟨s.idx + 2, upd s.running⟩, [(s.idx, e)])
    else (false, ⟨s.idx + 2, upd s.running⟩, [(s.idx, e)])
  else (false, ⟨s.idx + 1, s.running⟩, [])

/-- `notry!(self.process.wait())`: like `notryPrim` but the awaited
operation returns a `Result`, drawn from the `waitRes` oracle. -/
def notryWait (c : WorkerCtx) (s : WSt) :
    Bool × Option RuntimeError × WSt × List (Nat × Eff) :=
  if c.reads s.idx = c.gen then
    if c.reads (s.idx + 1) = c.gen then
      (true, c.waitRes s.idx, ⟨s.idx + 2, s.running⟩, [(s.idx, .wait)])
    else (false, none, ⟨s.idx + 2, s.running⟩, [(s.idx, .wait)])
  else (false, none, ⟨s.idx + 1, s.running⟩, [])

/-- The `Reset` arm's ordered sequence of screen-clear variants
(outcome_worker.rs lines 180–190), each a synchronous fallible call. -/
def resetSeq (c : WorkerCtx) (idx0 : Nat) :
    List Nat → AResult × List (Nat × Eff)
  | [] => (.ok, [])
  | v :: vs =>
    match c.resetRes v with
    | some e => (.err e, [(idx0, .resetScreen v)])
    | none =>
      let (r, es) := resetSeq c idx0 vs
      (r, (idx0, .resetScreen v) :: es)

/-- Post-processing of `notry!(self.apply(sub))?` (outcome_worker.rs lines
89–112 with the `?` of lines 198–212): a panic unwinds immediately; otherwise
the counter is compared after the await — on mismatch abort with `Ok`, else
propagate the inner result. -/
def applyFinish (c : WorkerCtx) :
    AResult × WSt × List (Nat × Eff) → AResult × WSt × List (Nat × Eff)
  | (.panicked, s2, es2) => (.panicked, s2, es2)
  | (r, s2, es2) =>
    if c.reads s2.idx = c.gen then
      match r with
      | .err e => (.err e, ⟨s2.idx + 1, s2.running⟩, es2)
      | _ => (.ok, ⟨s2.idx + 1, s2.running⟩, es2)
    else (.ok, ⟨s2.idx + 1, s2.running⟩, es2)

/-- The `(true, Stop)` arm (outcome_worker.rs lines 118–122):
`notry!(kill)`, `notry!(wait)?`, `notry!(drop_inner)`. -/
def stopSeq (c : WorkerCtx) (s1 : WSt) : AResult × WSt × List (Nat × Eff) :=
  match notryPrim c .kill id s1 with
  | (false, s2, es2) => (.ok, s2, es2)
  | (true, s2, es2) =>
    match notryWait c s2 with
    | (false, _, s3, es3) => (.ok, s3, es2 ++ es3)
    | (true, some e, s3, es3) => (.err e, s3, es2 ++ es3)
    | (true, none, s3, es3) =>
      match notryPrim c .dropInner (fun _ => false) s3 with
      | (_, s4, es4) => (.ok, s4, es2 ++ es3 ++ es4)

/-- The `(running, Destroy)` arm (outcome_worker.rs lines 123–131): if
running, kill → wait → drop, then `todo!("implement destroy")` panics. -/
def destroySeq (c : WorkerCtx) (rn : Bool) (s1 : WSt) :
    AResult × WSt × List (Nat × Eff) :=
  if rn then
    match notryPrim c .kill id s1 with
    | (false, s2, es2) => (.ok, s2, es2)
    | (true, s2, es2) =>
      match notryWait c s2 with
      | (false, _, s3, es3) => (.ok, s3, es2 ++ es3)
      | (true, some e, s3, es3) => (.err e, s3, es2 ++ es3)
      | (true, none, s3, es3) =>
        match notryPrim c .dropInner (fun _ => false) s3 with
        | (false, s4, es4) => (.ok, s4, es2 ++ es3 ++ es4)
        | (true, s4, es4) => (.panicked, s4, es2 ++ es3 ++ es4)
  else (.panicked, s1, [])

/-- The `Start`/`StartHook` arms (outcome_worker.rs lines 135–160): the
synchronous fallible `Supervisor::spawn`, then `notry!(replace)`. -/
def startSeq (c : WorkerCtx) (withHook : Bool) (s1 : WSt) :
    AResult × WSt × List (Nat × Eff) :=
  match c.spawnRes s1.idx with
  | some e => (.err e, s1, [(s1.idx, .spawnSup withHook)])
  | none =>
    match notryPrim c .replaceProc (fun _ => true) s1 with
    | (_, s2, es2) => (.ok, s2, (s1.idx, Eff.spawnSup withHook) :: es2)

/-- The `(true, Signal)` arm (outcome_worker.rs lines 162–164). -/
def signalSeq (c : WorkerCtx) (sig : SignalM) (s1 : WSt) :
    AResult × WSt × List (Nat × Eff) :=
  match notryPrim c (.signal sig) id s1 with
  | (_, s2, es2) => (.ok, s2, es2)

/-- The `(true, Wait)` arm (outcome_worker.rs lines 166–168):
`notry!(wait)?`. -/
def waitSeq (c : WorkerCtx) (s1 : WSt) : AResult × WSt × List (Nat × Eff) :=
  match notryWait c s1 with
  | (false, _, s2, es2) => (.ok, s2, es2)
  | (true, some e, s2, es2) => (.err e, s2, es2)
  | (true, none, s2, es2) => (.ok, s2, es2)

/-- The `Sleep` arm (outcome_worker.rs lines 170–174). -/
def sleepSeq (c : WorkerCtx) (d : Nat) (s1 : WSt) :
    AResult × WSt × List (Nat × Eff) :=
  match notryPrim c (.sleep d) id s1 with
  | (_, s2, es2) => (.ok, s2, es2)

/-- The `Clear` arm (outcome_worker.rs lines 176–178): synchronous fallible
`clearscreen::clear()?`. -/
def clearSeq (c : WorkerCtx) (s1 : WSt) : AResult × WSt × List (Nat × Eff) :=
  match c.clearRes s1.idx with
  | some e => (.err e, s1, [(s1.idx, .clearScreen)])
  | none => (.ok, s1, [(s1.idx, .clearScreen)])

/-- The `Reset` arm (outcome_worker.rs lines 180–190). -/
def resetArm (c : WorkerCtx) (s1 : WSt) : AResult × WSt × List (Nat × Eff) :=
  match resetSeq c s1.idx [0, 1, 2, 3, 4] with
  | (r, es) => (r, s1, es)

/-- The middle of the `Both` arm (outcome_worker.rs lines 204–213): after
the first limb, a panic or a failed post-check ends the arm (`inl`); a
first-limb error is sent on the error channel under `notry!` (whose abort
also ends the arm); otherwise continue to the second limb (`inr`). -/
def bothMiddle (c : WorkerCtx) :
    AResult × WSt × List (Nat × Eff) →
      (AResult × WSt × List (Nat × Eff)) ⊕ (WSt × List (Nat × Eff))
  | (.panicked, s2, es2) => .inl (.panicked, s2, es2)
  | (.ok, s2, es2) =>
    if c.reads s2.idx = c.gen then .inr (⟨s2.idx + 1, s2.running⟩, es2)
    else .inl (.ok, ⟨s2.idx + 1, s2.running⟩, es2)
  | (.err e1, s2, es2) =>
    if c.reads s2.idx = c.gen then
      match notryPrim c (.sendError e1) id ⟨s2.idx + 1, s2.running⟩ with
      | (false, s4, es4) => .inl (.ok, s4, es2 ++ es4)
      | (true, s4, es4) => .inr (s4, es2 ++ es4)
    else .inl (.ok, ⟨s2.idx + 1, s2.running⟩, es2)

/-- The tail of the `Race` arm (outcome_worker.rs lines 215–221): the
first-finishing limb's error is returned, anything else is `Ok`. -/
def raceFinish :
    AResult × WSt × List (Nat × Eff) → AResult × WSt × List (Nat × Eff)
  | (.err e, s2, es2) => (.err e, s2, es2)
  | (.panicked, s2, es2) => (.panicked, s2, es2)
  | (.ok, s2, es2) => (.ok, s2, es2)

/-- `OutcomeWorker::apply` (outcome_worker.rs lines 103–225).  Every arm
begins with `notry!(self.process.is_some())`; `notry!` aborts return
`Ok(())`.  The source matches on the pair `(is_some, outcome)` in order;
here the dispatch is per outcome constructor with the running flag tested
inside each arm, which is the same function.  `Race` runs both limbs under
`select`: the first-finishing limb decides the result and the other limb is
dropped at its next suspension point (cooperative cancellation); the model
runs the deciding limb, chosen by the `race` oracle. -/
def apply (c : WorkerCtx) (o : Outcome) (s : WSt) :
    AResult × WSt × List (Nat × Eff) :=
  if c.reads s.idx = c.gen then
    if c.reads (s.idx + 1) = c.gen then
      let s1 : WSt := ⟨s.idx + 2, s.running⟩
      let step : AResult × WSt × List (Nat × Eff) :=
        match o with
        | .doNothing => (.ok, s1, [])
        | .exit => (.err .exit, s1, [])
        | .stop => if s.running then stopSeq c s1 else (.ok, s1, [])
        | .destroy => destroySeq c s.running s1
        | .wait => if s.running then waitSeq c s1 else (.ok, s1, [])
        | .signal sig =>
          if s.running then signalSeq c sig s1 else (.ok, s1, [])
        | .start => startSeq c false s1
        | .startHook _ => startSeq c true s1
        | .sleep d => sleepSeq c d s1
        | .clear => clearSeq c s1
        | .reset => resetArm c s1
        | .hook h => (.ok, s1, [(s1.idx, .hook h)])
        | .ifRunning whenRunning otherwise =>
          if s.running then
            if c.reads s1.idx = c.gen then
              applyFinish c (apply c whenRunning ⟨s1.idx + 1, s1.running⟩)
            else (.ok, ⟨s1.idx + 1, s1.running⟩, [])
          else
            if c.reads s1.idx = c.gen then
              applyFinish c (apply c otherwise ⟨s1.idx + 1, s1.running⟩)
            else (.ok, ⟨s1.idx + 1, s1.running⟩, [])
        | .both one two =>
          if c.reads s1.idx = c.gen then
            match bothMiddle c (apply c one ⟨s1.idx + 1, s1.running⟩) with
            | .inl done => done
            | .inr (s4, es) =>
              if c.reads s4.idx = c.gen then
                match applyFinish c (apply c two ⟨s4.idx + 1, s4.running⟩) with
                | (r, s5, es5) => (r, s5, es ++ es5)
              else (.ok, ⟨s4.idx + 1, s4.running⟩, es)
          else (.ok, ⟨s1.idx + 1, s1.running⟩, [])
        | .race one two =>
          if c.race s1.idx then raceFinish (apply c one s1)
          else raceFinish (apply c two s1)
      (step.1, step.2.1, (s.idx, Eff.isSome) :: step.2.2)
    else (.ok, ⟨s.idx + 2, s.running⟩, [(s.idx, .isSome)])
  else (.ok, ⟨s.idx + 1, s.running⟩, [])

/-- The error handling of `OutcomeWorker::spawn`'s background task
(outcome_worker.rs lines 68–87): whatever error `apply` returns — the
sentinel `Exit` included — is sent on the error channel; `Ok` sends
nothing (a panic unwinds the task). -/
def spawnErrorSends : AResult → List RuntimeError
  | .err e => [e]
  | .ok => []
  | .panicked => []

/-!
## Fixtures for the concrete scenarios
-/

/-- A trivial instantiation of the external collaborators: engines that match
nothing and a builder producing a matcher that matches nothing. -/
def extNone : Externals :=
  ⟨fun _ _ => false, fun _ _ => false,
   fun _ _ => ⟨fun _ _ => .noMatch, fun _ _ => .noMatch⟩⟩

/-- A freshly constructed filterer: origin = workdir = `/proj`, no filters,
no compiled matchers, and an empty (always-passing) ignore sub-filterer. -/
def tfFresh : TaggedFilterer :=
  ⟨["proj"], ["proj"], fun _ => none, fun _ _ => true, none, none⟩

/-- A Priority filter `{Equal, "high", negate=false}`. -/
def fPriHigh : Filter := ⟨.priority, .equal, .exact "high", none, false⟩

/-- A Priority filter `{Equal, "low", negate=true}`. -/
def fPriLowNeg : Filter := ⟨.priority, .equal, .exact "low", none, true⟩

/-- A filterer with the single Priority filter `{Equal, "high"}`. -/
def tfPriorityHigh : TaggedFilterer :=
  { tfFresh with filters := insertFilter (fun _ => none) fPriHigh }

/-- Scenario S3: Priority filters `[{Equal,"high"}, {Equal,"low",negate}]`. -/
def tfS3 : TaggedFilterer :=
  { tfFresh with
    filters := fun m =>
      if m = Matcher.priority then some [fPriHigh, fPriLowNeg] else none }

/-- Scenario S4: the Path filter `{on=Path, in_path=/other, op=Equal,
pat="x"}`. -/
def fS4 : Filter := ⟨.path, .equal, .exact "x", some ["other"], false⟩

/-- Scenario S4's filterer: only `fS4`, under the Path matcher. -/
def tfS4 : TaggedFilterer :=
  { tfFresh with
    filters := fun m => if m = Matcher.path then some [fS4] else none }

/-- A compiled matcher that matches nothing (`Match::None` everywhere). -/
def giNoMatch : Gitignore := ⟨fun _ _ => .noMatch, fun _ _ => .noMatch⟩

/-- A compiled matcher that whitelists everything (an unscoped negated
line matching every path). -/
def giWhitelist : Gitignore :=
  ⟨fun _ _ => .whitelist none, fun _ _ => .whitelist none⟩

/-- The claim's interpretation of the Glob matcher's three-valued result:
`None` fails, a scoped `Ignore` passes, an out-of-scope `Ignore` and a
`Whitelist` have no effect (true in an AND). -/
def specGlobInterp (_p : PathM) (r : GMatch) : Bool :=
  match r with
  | .noMatch => false
  | .ignoreM _ => true
  | .whitelist _ => true

/-- The claim's interpretation of the NotGlob matcher's three-valued result:
`None` passes, a scoped `Ignore` fails, an out-of-scope `Ignore` has no
effect, a `Whitelist` passes. -/
def specNotGlobInterp (p : PathM) (r : GMatch) : Bool :=
  match r with
  | .noMatch => true
  | .ignoreM src => if scopeOk src p then false else true
  | .whitelist _ => true

/-- The claim's combination rule, following the spec's words: the initial
`tag_match` is the AND of the two per-polarity interpreted sub-results. -/
def specInitTagMatch (origin : PathM) (gc ngc : Option Gitignore) (p : PathM)
    (isDir : Bool) : Bool :=
  (match gc with
   | none => true
   | some igs => specGlobInterp p (queryGitignore origin igs p isDir))
  && (match ngc with
      | none => true
      | some ngs => specNotGlobInterp p (queryGitignore origin ngs p isDir))

/-- A worker context that is never superseded: every read of the shared
counter observes this worker's generation, no sub-operation fails, and the
left limb of a race finishes first. -/
def cNoCycle : WorkerCtx :=
  ⟨1, fun _ => 1, fun _ => none, fun _ => none, fun _ => none, fun _ => none,
   fun _ => true⟩

/-- A context whose worker (generation 1) is superseded after the very
first counter read: read 0 observes 1, all later reads observe 2. -/
def cCycled : WorkerCtx :=
  ⟨1, fun i => if i = 0 then 1 else 2, fun _ => none, fun _ => none,
   fun _ => none, fun _ => none, fun _ => true⟩

/-- The guard invariant `Guarded c a t` for a run segment `t` that started at
read index `a`: read indices advance; effects are tagged within the segment;
a segment during which any counter check mismatched returns success; and
every check performed before an effect was emitted agreed with the worker's
generation. -/
def Guarded (c : WorkerCtx) (a : Nat)
    (t : AResult × WSt × List (Nat × Eff)) : Prop :=
  a ≤ t.2.1.idx
  ∧ (∀ p ∈ t.2.2, a ≤ p.1 ∧ p.1 ≤ t.2.1.idx)
  ∧ ((∃ j, a ≤ j ∧ j < t.2.1.idx ∧ c.reads j ≠ c.gen) → t.1 = .ok)
  ∧ (∀ p ∈ t.2.2, ∀ j, a ≤ j → j < p.1 → c.reads j = c.gen)

/-!
## C1 — urgent events and `check_event`
-/

/-- [C1] Counterexample: on a filterer with a Priority filter configured,
checking an Urgent event reaches `unreachable!` (panics) instead of
returning `Ok(true)` — so `check_event` does not itself bypass filtering for
Urgent events. -/
theorem c1_counterexample :
    check extNone tfPriorityHigh ⟨[]⟩ .urgent ≠ CheckResult.ok true := by
  decide

/-- [C1, amended] The urgent bypass is enforced by the caller, not inside
`check_event`: whenever at least one Priority filter is configured, `check`
on an Urgent event panics (its priority subject arm is
`unreachable!("urgent by-passes filtering")`) rather than returning true. -/
theorem c1_urgent_caller_enforced (E : Externals) (tf : TaggedFilterer)
    (ev : Event) (f : Filter) (fs : List Filter)
    (h : tf.filters .priority = some (f :: fs)) :
    check E tf ev .urgent = .panicked := by
  simp [check, h, priorityGate, prioritySubject]

/-- [C1] Witness: the amended theorem at the concrete filterer with one
Priority filter. -/
theorem c1_witness :
    check extNone tfPriorityHigh ⟨[]⟩ .urgent = .panicked :=
  c1_urgent_caller_enforced extNone tfPriorityHigh ⟨[]⟩ fPriHigh [] (by decide)

/-!
## C2 — the initial `tag_match` from the compiled matchers
-/

/-- [C2] Counterexample: with a Glob matcher that matches nothing and a
NotGlob matcher that whitelists the path, the code's initial `tag_match` is
`true` (the NotGlob `Whitelist` arm assigns `tag_match = true` outright),
while the claim's AND combination yields `false`. -/
theorem c2_counterexample :
    initTagMatch ["proj"] (some giNoMatch) (some giWhitelist)
        ["proj", "a"] false = true
    ∧ specInitTagMatch ["proj"] (some giNoMatch) (some giWhitelist)
        ["proj", "a"] false = false := by
  exact ⟨rfl, rfl⟩

/-- [C2, amended] The initial `tag_match` is the AND of the two per-polarity
interpreted sub-results (each `Ignore` effective only when its origin is
absent or an ancestor of the path), except that a `Whitelist` result from
the NotGlob matcher sets `tag_match` to `true` unconditionally, overriding
the Glob sub-result. -/
theorem c2_init_tag_match_combination (origin p : PathM) (isDir : Bool)
    (g1 g2 : Gitignore) :
    initTagMatch origin (some g1) (some g2) p isDir =
      (match queryGitignore origin g2 p isDir with
       | .whitelist _ => true
       | r => specGlobInterp p (queryGitignore origin g1 p isDir)
           && specNotGlobInterp p r) := by
  have key : ∀ r1 r2 : GMatch,
      notGlobPolarityStep p r2 (globPolarityStep p r1 true) =
        (match r2 with
         | .whitelist _ => true
         | r => specGlobInterp p r1 && specNotGlobInterp p r) := by
    intro r1 r2
    rcases r1 with _ | s1 | s1 <;> rcases r2 with _ | s2 | s2 <;>
      simp [globPolarityStep, notGlobPolarityStep, specGlobInterp,
        specNotGlobInterp]
  simpa [initTagMatch] using
    key (queryGitignore origin g1 p isDir) (queryGitignore origin g2 p isDir)

/-!
## C5 — the negate-aware filter reducer
-/

/-- Helper for C5: in the priority-gate reducer, a negated filter that
matches rescues the whole matcher regardless of any earlier accumulator
value and of all later filters. -/
theorem reduceFilters_negate_break (E : Externals) (subject : String) :
    ∀ (l1 : List Filter) (f : Filter) (l2 : List Filter) (acc : Bool),
      f.negate = true → f.matches E subject = true →
      reduceFilters E (l1 ++ f :: l2) subject acc = true := by
  intro l1
  induction l1 with
  | nil =>
    intro f l2 acc hneg happ
    simp [reduceFilters, hneg, happ]
  | cons g rest ih =>
    intro f l2 acc hneg happ
    simp only [List.cons_append, reduceFilters]
    by_cases hg : g.negate <;> by_cases hm : g.matches E subject <;>
      simp [hg, hm, ih f l2 _ hneg happ]

/-- Helper for C5: the same short-circuit in the per-tag reducer. -/
theorem reduceTagFilters_negate_break (E : Externals) (tf : TaggedFilterer)
    (tag : Tag) :
    ∀ (l1 : List Filter) (f : Filter) (l2 : List Filter) (acc : Bool),
      f.negate = true → tf.matchTag E f tag = some true →
      reduceTagFilters E tf (l1 ++ f :: l2) tag acc = true := by
  intro l1
  induction l1 with
  | nil =>
    intro f l2 acc hneg happ
    simp [reduceTagFilters, hneg, happ]
  | cons g rest ih =>
    intro f l2 acc hneg happ
    simp only [List.cons_append, reduceTagFilters]
    rcases hg : tf.matchTag E g tag with _ | app
    · simp [ih f l2 _ hneg happ]
    · by_cases hgn : g.negate <;> cases app <;>
        simp [hgn, ih f l2 _ hneg happ]

/-- [C5] At any single matcher, the reducer evaluates filters in insertion
order: a negated filter whose `matches`/`match_tag` result is true sets the
accumulator to true and stops evaluation at that matcher, so the matcher
accepts regardless of every later filter (and of the accumulated value so
far); and, concretely, the Priority filters
`[{Equal,"high",negate=false}, {Equal,"low",negate=true}]` accept a
Low-priority event. -/
theorem c5_negate_short_circuit :
    (∀ (E : Externals) (subject : String) (l1 : List Filter) (f : Filter)
        (l2 : List Filter) (acc : Bool),
      f.negate = true → f.matches E subject = true →
      reduceFilters E (l1 ++ f :: l2) subject acc = true)
    ∧ (∀ (E : Externals) (tf : TaggedFilterer) (tag : Tag) (l1 : List Filter)
        (f : Filter) (l2 : List Filter) (acc : Bool),
      f.negate = true → tf.matchTag E f tag = some true →
      reduceTagFilters E tf (l1 ++ f :: l2) tag acc = true)
    ∧ check extNone tfS3 ⟨[]⟩ .low = .ok true := by
  refine ⟨?_, ?_, by decide⟩
  · intro E subject l1 f l2 acc hneg happ
    exact reduceFilters_negate_break E subject l1 f l2 acc hneg happ
  · intro E tf tag l1 f l2 acc hneg happ
    exact reduceTagFilters_negate_break E tf tag l1 f l2 acc hneg happ

/-- [C5] Witness: the short-circuit applied to the S3 filter list with a
trailing filter, and the reducer evaluated on it. -/
theorem c5_witness :
    reduceFilters extNone [fPriHigh, fPriLowNeg, fPriHigh] "low" true = true :=
  c5_negate_short_circuit.1 extNone "low" [fPriHigh] fPriLowNeg [fPriHigh]
    true (by decide) (by decide)

/-!
## C7 — `add_filters` then `clear_filters`
-/

theorem setCompiled_filters (tf : TaggedFilterer) (op : Op)
    (v : Option Gitignore) : (setCompiled tf op v).filters = tf.filters := by
  cases op <;> rfl

theorem setCompiled_ignoreF (tf : TaggedFilterer) (op : Op)
    (v : Option Gitignore) : (setCompiled tf op v).ignoreF = tf.ignoreF := by
  cases op <;> rfl

theorem recompileGlobs_filters (E : Externals) (tf : TaggedFilterer)
    (op : Op) : (recompileGlobs E tf op).filters = tf.filters := by
  unfold recompileGlobs
  rcases h : tf.filters .path with _ | fs <;> simp [h, setCompiled_filters]

theorem recompileGlobs_ignoreF (E : Externals) (tf : TaggedFilterer)
    (op : Op) : (recompileGlobs E tf op).ignoreF = tf.ignoreF := by
  unfold recompileGlobs
  rcases h : tf.filters .path with _ | fs <;> simp [h, setCompiled_ignoreF]

theorem clearFilters_filters (E : Externals) (tf : TaggedFilterer) :
    (tf.clearFilters E).filters = fun _ => none := by
  unfold TaggedFilterer.clearFilters
  rw [recompileGlobs_filters, recompileGlobs_filters]

theorem clearFilters_ignoreF (E : Externals) (tf : TaggedFilterer) :
    (tf.clearFilters E).ignoreF = tf.ignoreF := by
  unfold TaggedFilterer.clearFilters
  rw [recompileGlobs_ignoreF, recompileGlobs_ignoreF]

theorem addFilters_ignoreF (E : Externals) (tf : TaggedFilterer)
    (F : List Filter) : (tf.addFilters E F).ignoreF = tf.ignoreF := by
  unfold TaggedFilterer.addFilters
  by_cases hG : F.any (fun f => decide (f.op = Op.glob)) <;>
    by_cases hNG : F.any (fun f => decide (f.op = Op.notGlob)) <;>
      simp [hG, hNG, recompileGlobs_ignoreF]

/-- [C7] Counterexample: with a Priority filter already configured, adding a
filter list and then calling `clear_filters` does not restore the previous
`check_event` verdict — the pre-existing filter is wiped too (the event
passed the emptied filterer but failed the original one). -/
theorem c7_counterexample :
    check extNone
        ((tfPriorityHigh.addFilters extNone [fPriLowNeg]).clearFilters extNone)
        ⟨[]⟩ .normal
      ≠ check extNone tfPriorityHigh ⟨[]⟩ .normal := by
  decide

/-- [C7, amended] `clear_filters` resets the filterer to its pristine
no-filter state: the filter map becomes empty and both compiled glob
matchers are erased.  Consequently, adding filters and then clearing
restores `check_event` exactly when no filters were configured beforehand;
any pre-existing filters are discarded as well. -/
theorem c7_clear_resets (E : Externals) (tf : TaggedFilterer) :
    ((tf.clearFilters E).globCompiled = none
      ∧ (tf.clearFilters E).notGlobCompiled = none
      ∧ ∀ m, (tf.clearFilters E).filters m = none)
    ∧ (∀ (F : List Filter) (ev : Event) (pri : Priority),
        (∀ m, tf.filters m = none) →
        check E ((tf.addFilters E F).clearFilters E) ev pri =
          check E tf ev pri) := by
  constructor
  · refine ⟨rfl, rfl, fun m => ?_⟩
    rw [clearFilters_filters]
  · intro F ev pri h
    have hig : ((tf.addFilters E F).clearFilters E).ignoreF = tf.ignoreF := by
      rw [clearFilters_ignoreF, addFilters_ignoreF]
    have hfil : ((tf.addFilters E F).clearFilters E).filters =
        fun _ => none := clearFilters_filters E _
    simp [check, TaggedFilterer.noFilters, allMatchers, hig, hfil, h]

/-- [C7] Witness: add-then-clear on the fresh filterer leaves the verdict of
a Normal-priority event unchanged. -/
theorem c7_witness :
    check extNone ((tfFresh.addFilters extNone [fPriHigh]).clearFilters extNone)
        ⟨[]⟩ .normal
      = check extNone tfFresh ⟨[]⟩ .normal :=
  (c7_clear_resets extNone tfFresh).2 [fPriHigh] ⟨[]⟩ .normal (fun _ => rfl)

/-!
## C8 — signal matching
-/

/-- [C8] For a filter on the Signal matcher against a Signal tag,
`match_tag` returns `some true` exactly when the filter matches one of the
three subject forms — short name, `SIG`-prefixed long name, or decimal
number — under the canonical mapping HUP=1, INT=2, QUIT=3, KILL=9, USR1=10,
USR2=12, TERM=15, with `Custom(n)` keeping its number and `Custom(0)`
rendered "UNK"/0; concretely, `{op=Equal, pat="SIGINT"}` and
`{op=Equal, pat="2"}` match `Signal(Interrupt)` while `{op=Equal,
pat="HUP"}` does not. -/
theorem c8_signal_matching :
    (∀ (E : Externals) (tf : TaggedFilterer) (op : Op) (pat : Pattern)
        (ip : Option PathM) (neg : Bool) (sig : SignalM),
      tf.matchTag E ⟨.signal, op, pat, ip, neg⟩ (.signal sig) =
        some ((Filter.mk .signal op pat ip neg).matches E (sigMatch sig).1
          || (Filter.mk .signal op pat ip neg).matches E
              ("SIG" ++ (sigMatch sig).1)
          || (Filter.mk .signal op pat ip neg).matches E
              (toString (sigMatch sig).2)))
    ∧ sigMatch .hangup = ("HUP", 1) ∧ sigMatch .interrupt = ("INT", 2)
    ∧ sigMatch .quit = ("QUIT", 3) ∧ sigMatch .forceStop = ("KILL", 9)
    ∧ sigMatch .user1 = ("USR1", 10) ∧ sigMatch .user2 = ("USR2", 12)
    ∧ sigMatch .terminate = ("TERM", 15) ∧ sigMatch (.custom 0) = ("UNK", 0)
    ∧ (∀ n : Int, (sigMatch (.custom n)).2 = n)
    ∧ tfFresh.matchTag extNone ⟨.signal, .equal, .exact "SIGINT", none, false⟩
        (.signal .interrupt) = some true
    ∧ tfFresh.matchTag extNone ⟨.signal, .equal, .exact "2", none, false⟩
        (.signal .interrupt) = some true
    ∧ tfFresh.matchTag extNone ⟨.signal, .equal, .exact "HUP", none, false⟩
        (.signal .interrupt) = some false := by
  refine ⟨fun E tf op pat ip neg sig => rfl, rfl, rfl, rfl, rfl, rfl, rfl,
    rfl, rfl, ?_, by decide, by decide, by decide⟩
  intro n
  unfold sigMatch
  split <;> simp_all

/-!
## C9 — `in_path` scoping of Path filters
-/

/-- [C9] A Path filter with `in_path` set is silently skipped (`match_tag`
returns `none`) when the path does not share that prefix; when it does, the
subject is the path with the prefix stripped (and for a filter without
`in_path`, the first matching prefix among workdir, origin and the root is
stripped — that is `resolvePathTag`); concretely, scenario S4 passes
vacuously. -/
theorem c9_in_path_scope :
    (∀ (E : Externals) (tf : TaggedFilterer) (op : Op) (pat : Pattern)
        (neg : Bool) (ctx p : PathM) (ft : Option FileType),
      stripPrefixP p ctx = none →
      tf.matchTag E ⟨.path, op, pat, some ctx, neg⟩ (.path p ft) = none)
    ∧ (∀ (E : Externals) (tf : TaggedFilterer) (op : Op) (pat : Pattern)
        (neg : Bool) (ctx p suf : PathM) (ft : Option FileType),
      stripPrefixP p ctx = some suf → op ≠ .glob → op ≠ .notGlob →
      tf.matchTag E ⟨.path, op, pat, some ctx, neg⟩ (.path p ft) =
        some ((Filter.mk .path op pat (some ctx) neg).matches E
          (joinPath suf)))
    ∧ check extNone tfS4 ⟨[.path ["proj", "x"] none]⟩ .normal = .ok true := by
  refine ⟨?_, ?_, by decide⟩
  · intro E tf op pat neg ctx p ft h
    simp [TaggedFilterer.matchTag, resolvePathTag, h]
  · intro E tf op pat neg ctx p suf ft h hg hng
    cases op <;> simp_all [TaggedFilterer.matchTag, resolvePathTag]

/-- [C9] Witness: scenario S4's filter against the event path `/proj/x`
(out of the `/other` scope: skipped) and against a path inside the scope
(subject is the stripped suffix). -/
theorem c9_witness :
    tfFresh.matchTag extNone fS4 (.path ["proj", "x"] none) = none
    ∧ tfFresh.matchTag extNone fS4 (.path ["other", "x"] none) =
        some (fS4.matches extNone (joinPath ["x"])) :=
  ⟨c9_in_path_scope.1 extNone tfFresh .equal (.exact "x") false ["other"]
      ["proj", "x"] none (by decide),
   c9_in_path_scope.2.1 extNone tfFresh .equal (.exact "x") false ["other"]
      ["other", "x"] ["x"] none (by decide) (by decide) (by decide)⟩

/-!
## C10 — FileType filters and typeless Path tags
-/

/-- [C10] A FileType filter against a Path tag without a file type is
silently skipped: `match_tag` falls to the catch-all and returns `none`
(indeed a typeless Path tag does not even map to the FileType matcher), so
such a tag can never cause a FileType filter to apply. -/
theorem c10_filetype_none_skip :
    (∀ (E : Externals) (tf : TaggedFilterer) (op : Op) (pat : Pattern)
        (ip : Option PathM) (neg : Bool) (p : PathM),
      tf.matchTag E ⟨.fileType, op, pat, ip, neg⟩ (.path p none) = none)
    ∧ (∀ p : PathM, Matcher.fromTag (.path p none) = [.tag, .path]) :=
  ⟨fun _ _ _ _ _ _ _ => rfl, fun _ => rfl⟩

/-!
## C3 — the sentinel `Exit` error and the error channel
-/

/-- [C3] Counterexample: when `apply` returns the sentinel `Exit` error, the
spawn wrapper does send it on the error channel — `Exit` is forwarded, not
withheld. -/
theorem c3_counterexample :
    RuntimeError.exit ∈ spawnErrorSends (.err .exit) := by
  decide

/-- [C3, amended] The spawn wrapper sends every error returned by `apply` on
the error channel, the sentinel `Exit` included (`Exit` is distinguished
only in the log message); and inside `Both`, the first limb's error — here
`Exit` — is likewise sent on the error channel before the second limb runs,
with `apply` itself returning success. -/
theorem c3_exit_sent_on_channel :
    (∀ e : RuntimeError, spawnErrorSends (.err e) = [e])
    ∧ spawnErrorSends .ok = []
    ∧ spawnErrorSends .panicked = []
    ∧ (apply cNoCycle (.both .exit .doNothing) ⟨0, false⟩).1 = .ok
    ∧ ((6 : Nat), Eff.sendError .exit) ∈
        (apply cNoCycle (.both .exit .doNothing) ⟨0, false⟩).2.2 := by
  refine ⟨fun e => rfl, rfl, rfl, by decide, by decide⟩

/-!
## C4 — `Race` and error surfacing
-/

/-- [C4] Counterexample: in `Race(DoNothing, Exit)` where the left limb
finishes first, the losing limb would error (applying it alone returns the
`Exit` error) yet `apply` of the race returns success — an error of "either
limb" is not surfaced, only the first-finishing limb's. -/
theorem c4_counterexample :
    (apply cNoCycle (.race .doNothing .exit) ⟨0, false⟩).1 = .ok
    ∧ (apply cNoCycle .exit ⟨0, false⟩).1 = .err .exit := by
  exact ⟨by decide, by decide⟩

/-- Helper for C4: one unfolding of the `Race` arm when the left limb
finishes first. -/
theorem apply_race_won (c : WorkerCtx) (one two : Outcome) (s : WSt)
    (h0 : c.reads s.idx = c.gen) (h1 : c.reads (s.idx + 1) = c.gen)
    (hw : c.race (s.idx + 2) = true) :
    apply c (.race one two) s =
      (match raceFinish (apply c one ⟨s.idx + 2, s.running⟩) with
       | (r, s2, es) => (r, s2, (s.idx, Eff.isSome) :: es)) := by
  conv_lhs => rw [apply.eq_def]
  rw [if_pos h0, if_pos h1]
  simp only [hw, eq_self_iff_true, if_true]

/-- [C4, amended] `Race` runs both limbs under `select`; the first limb to
finish alone decides `apply`'s result (its error, if any, is surfaced), and
the losing limb — cancelled by being dropped — influences neither the
result nor anything else: with the left limb winning, the race's outcome is
the left limb's outcome and is independent of the right limb. -/
theorem c4_race_first_decides (c : WorkerCtx) (s : WSt)
    (one two two' : Outcome)
    (h0 : c.reads s.idx = c.gen) (h1 : c.reads (s.idx + 1) = c.gen)
    (hw : c.race (s.idx + 2) = true) :
    (apply c (.race one two) s).1 = (apply c one ⟨s.idx + 2, s.running⟩).1
    ∧ apply c (.race one two) s = apply c (.race one two') s := by
  constructor
  · rw [apply_race_won c one two s h0 h1 hw]
    rcases happly : apply c one ⟨s.idx + 2, s.running⟩ with ⟨r, s2, es2⟩
    cases r <;> simp [raceFinish]
  · rw [apply_race_won c one two s h0 h1 hw,
      apply_race_won c one two' s h0 h1 hw]

/-- [C4] Witness: the amended theorem at a concrete context and limbs. -/
theorem c4_witness :
    (apply cNoCycle (.race .doNothing .exit) ⟨0, false⟩).1 =
      (apply cNoCycle .doNothing ⟨2, false⟩).1
    ∧ apply cNoCycle (.race .doNothing .exit) ⟨0, false⟩ =
        apply cNoCycle (.race .doNothing .stop) ⟨0, false⟩ :=
  c4_race_first_decides cNoCycle ⟨0, false⟩ .doNothing .exit .stop
    (by decide) (by decide) (by decide)

/-!
## C6 — the generation guard
-/

theorem guarded_okT (c : WorkerCtx) (a : Nat) (s' : WSt)
    (es : List (Nat × Eff)) (hidx : a ≤ s'.idx)
    (heff : ∀ p ∈ es, a ≤ p.1 ∧ p.1 ≤ s'.idx)
    (hbefore : ∀ p ∈ es, ∀ j, a ≤ j → j < p.1 → c.reads j = c.gen) :
    Guarded c a (.ok, s', es) :=
  ⟨hidx, heff, fun _ => rfl, hbefore⟩

theorem guarded_allgoodT (c : WorkerCtx) (a : Nat) (r : AResult) (s' : WSt)
    (es : List (Nat × Eff)) (hidx : a ≤ s'.idx)
    (heff : ∀ p ∈ es, a ≤ p.1 ∧ p.1 ≤ s'.idx)
    (hgood : ∀ j, a ≤ j → j < s'.idx → c.reads j = c.gen)
    (hbefore : ∀ p ∈ es, ∀ j, a ≤ j → j < p.1 → c.reads j = c.gen) :
    Guarded c a (r, s', es) :=
  ⟨hidx, heff, fun ⟨j, h1, h2, h3⟩ => absurd (hgood j h1 h2) h3, hbefore⟩

theorem notryPrim_cases (c : WorkerCtx) (e : Eff) (upd : Bool → Bool)
    (s : WSt) :
    (c.reads s.idx ≠ c.gen
      ∧ notryPrim c e upd s = (false, ⟨s.idx + 1, s.running⟩, []))
    ∨ (c.reads s.idx = c.gen ∧ c.reads (s.idx + 1) ≠ c.gen
      ∧ notryPrim c e upd s =
          (false, ⟨s.idx + 2, upd s.running⟩, [(s.idx, e)]))
    ∨ (c.reads s.idx = c.gen ∧ c.reads (s.idx + 1) = c.gen
      ∧ notryPrim c e upd s =
          (true, ⟨s.idx + 2, upd s.running⟩, [(s.idx, e)])) := by
  unfold notryPrim
  by_cases h0 : c.reads s.idx = c.gen <;>
    by_cases h1 : c.reads (s.idx + 1) = c.gen <;> simp [h0, h1]

theorem notryWait_cases (c : WorkerCtx) (s : WSt) :
    (c.reads s.idx ≠ c.gen
      ∧ notryWait c s = (false, none, ⟨s.idx + 1, s.running⟩, []))
    ∨ (c.reads s.idx = c.gen ∧ c.reads (s.idx + 1) ≠ c.gen
      ∧ notryWait c s =
          (false, none, ⟨s.idx + 2, s.running⟩, [(s.idx, .wait)]))
    ∨ (c.reads s.idx = c.gen ∧ c.reads (s.idx + 1) = c.gen
      ∧ notryWait c s =
          (true, c.waitRes s.idx, ⟨s.idx + 2, s.running⟩,
            [(s.idx, .wait)])) := by
  unfold notryWait
  by_cases h0 : c.reads s.idx = c.gen <;>
    by_cases h1 : c.reads (s.idx + 1) = c.gen <;> simp [h0, h1]

theorem resetSeq_effs (c : WorkerCtx) (idx0 : Nat) :
    ∀ (l : List Nat) (p : Nat × Eff), p ∈ (resetSeq c idx0 l).2 →
      p.1 = idx0 := by
  intro l
  induction l with
  | nil => intro p hp; simp [resetSeq] at hp
  | cons v vs ih =>
    intro p hp
    unfold resetSeq at hp
    rcases h : c.resetRes v with _ | e <;> rw [h] at hp <;> simp at hp
    · rcases hp with hp | hp
      · rw [hp]
      · exact ih p hp
    · rw [hp]

theorem guarded_stay (c : WorkerCtx) (r : AResult) (s1 : WSt)
    (es : List (Nat × Eff)) (htags : ∀ p ∈ es, p.1 = s1.idx) :
    Guarded c s1.idx (r, s1, es) := by
  refine ⟨le_refl _, ?_, ?_, ?_⟩
  · intro p hp
    rw [htags p hp]
    exact ⟨le_refl _, le_refl _⟩
  · rintro ⟨j, h1, h2, _⟩
    exfalso
    dsimp only at h2
    omega
  · intro p hp j hj1 hj2
    rw [htags p hp] at hj2
    exfalso
    omega

theorem guarded_primOk (c : WorkerCtx) (e : Eff) (upd : Bool → Bool)
    (s1 : WSt) (extra : List (Nat × Eff))
    (hextra : ∀ p ∈ extra, p.1 = s1.idx) :
    Guarded c s1.idx
      (.ok, (notryPrim c e upd s1).2.1,
        extra ++ (notryPrim c e upd s1).2.2) := by
  rcases notryPrim_cases c e upd s1 with
    ⟨h0, heq⟩ | ⟨h0, h1, heq⟩ | ⟨h0, h1, heq⟩ <;> rw [heq] <;> dsimp only <;>
    refine guarded_okT c s1.idx _ _ (by dsimp only; omega) ?_ ?_ <;>
      intro p hp <;> simp at hp
  · rw [hextra p hp]
    dsimp only
    omega
  · intro j hj1 hj2
    rw [hextra p hp] at hj2
    exfalso
    omega
  all_goals
    rcases hp with hp | rfl
    · first
      | (rw [hextra p hp]; dsimp only; omega)
      | (intro j hj1 hj2; rw [hextra p hp] at hj2; exfalso; omega)
    · dsimp only
      omega

theorem guarded_clearSeq (c : WorkerCtx) (s1 : WSt) :
    Guarded c s1.idx (clearSeq c s1) := by
  unfold clearSeq
  rcases c.clearRes s1.idx with _ | e <;> dsimp only <;>
    exact guarded_stay c _ s1 _ (by simp)

theorem guarded_resetArm (c : WorkerCtx) (s1 : WSt) :
    Guarded c s1.idx (resetArm c s1) := by
  unfold resetArm
  rcases h : resetSeq c s1.idx [0, 1, 2, 3, 4] with ⟨r, es⟩
  refine guarded_stay c r s1 es ?_
  intro p hp
  have h2 := resetSeq_effs c s1.idx [0, 1, 2, 3, 4] p
  rw [h] at h2
  exact h2 hp

theorem guarded_startSeq (c : WorkerCtx) (withHook : Bool) (s1 : WSt) :
    Guarded c s1.idx (startSeq c withHook s1) := by
  unfold startSeq
  rcases c.spawnRes s1.idx with _ | e <;> dsimp only
  · exact guarded_primOk c .replaceProc (fun _ => true) s1
      [(s1.idx, .spawnSup withHook)] (by simp)
  · exact guarded_stay c _ s1 _ (by simp)

theorem guarded_signalSeq (c : WorkerCtx) (sig : SignalM) (s1 : WSt) :
    Guarded c s1.idx (signalSeq c sig s1) := by
  unfold signalSeq
  exact guarded_primOk c (.signal sig) id s1 [] (by simp)

theorem guarded_sleepSeq (c : WorkerCtx) (d : Nat) (s1 : WSt) :
    Guarded c s1.idx (sleepSeq c d s1) := by
  unfold sleepSeq
  exact guarded_primOk c (.sleep d) id s1 [] (by simp)

theorem guarded_waitSeq (c : WorkerCtx) (s1 : WSt) :
    Guarded c s1.idx (waitSeq c s1) := by
  unfold waitSeq
  rcases notryWait_cases c s1 with
    ⟨h0, heq⟩ | ⟨h0, h1, heq⟩ | ⟨h0, h1, heq⟩ <;> rw [heq] <;> try dsimp only
  · exact guarded_okT c s1.idx _ _ (by dsimp only; omega) (by simp) (by simp)
  · refine guarded_okT c s1.idx _ _ (by dsimp only; omega) ?_ ?_ <;>
      intro p hp <;> simp at hp <;> subst hp
    · dsimp only; omega
    · intro j hj1 hj2
      dsimp only at hj2
      exfalso
      omega
  · rcases c.waitRes s1.idx with _ | e <;> dsimp only <;>
      refine guarded_allgoodT c s1.idx _ _ _ (by dsimp only; omega) ?_ ?_ ?_
    case _ =>
      intro p hp; simp at hp; subst hp; dsimp only; omega
    case _ =>
      intro j hj1 hj2
      dsimp only at hj2
      have hj : j = s1.idx ∨ j = s1.idx + 1 := by omega
      rcases hj with rfl | rfl
      · exact h0
      · exact h1
    case _ =>
      intro p hp j hj1 hj2
      simp at hp; subst hp
      exfalso; omega
    case _ =>
      intro p hp; simp at hp; subst hp; dsimp only; omega
    case _ =>
      intro j hj1 hj2
      dsimp only at hj2
      have hj : j = s1.idx ∨ j = s1.idx + 1 := by omega
      rcases hj with rfl | rfl
      · exact h0
      · exact h1
    case _ =>
      intro p hp j hj1 hj2
      simp at hp; subst hp
      exfalso; omega

/-- A linear run segment: all checks in `[a, a + good)` passed, every effect
is tagged at or below `a + good`, and the segment either returned `Ok` or
ended within the checked range. -/
theorem guarded_linear (c : WorkerCtx) (a : Nat) (r : AResult) (s' : WSt)
    (es : List (Nat × Eff)) (good : Nat)
    (hidx : a ≤ s'.idx)
    (heff : ∀ p ∈ es, a ≤ p.1 ∧ p.1 ≤ s'.idx)
    (hgood : ∀ j, a ≤ j → j < a + good → c.reads j = c.gen)
    (htagsLow : ∀ p ∈ es, p.1 ≤ a + good)
    (hret : r = .ok ∨ s'.idx ≤ a + good) :
    Guarded c a (r, s', es) := by
  refine ⟨hidx, heff, ?_, ?_⟩
  · rintro ⟨j, h1, h2, h3⟩
    dsimp only at h2
    rcases hret with rfl | hle
    · rfl
    · exact absurd (hgood j h1 (by omega)) h3
  · intro p hp j hj1 hj2
    exact hgood j hj1 (lt_of_lt_of_le hj2 (htagsLow p hp))

theorem guarded_stopSeq (c : WorkerCtx) (s1 : WSt) :
    Guarded c s1.idx (stopSeq c s1) := by
  obtain ⟨a, rn⟩ := s1
  unfold stopSeq
  rcases notryPrim_cases c .kill id ⟨a, rn⟩ with
    ⟨h0, heq⟩ | ⟨h0, h1, heq⟩ | ⟨h0, h1, heq⟩ <;>
    rw [heq] <;> simp only [id_eq] <;> dsimp only at h0 ⊢ <;>
      try dsimp only at h1
  · refine guarded_linear c a .ok _ _ 0 (by dsimp only; omega)
          (by simp)
          (by intro j hj1 hj2; omega)
          (by simp)
          (Or.inl rfl)
  · refine guarded_linear c a .ok _ _ 1 (by dsimp only; omega)
          (by
            intro p hp; simp at hp; subst hp
            exact ⟨by dsimp only; omega, by dsimp only; omega⟩)
          (by
            intro j hj1 hj2
            have hj : j = a := by omega
            rcases hj with rfl
            exacts [h0])
          (by
            intro p hp; simp at hp; subst hp; dsimp only; omega)
          (Or.inl rfl)
  · rcases notryWait_cases c ⟨a + 2, rn⟩ with
      ⟨h2, heq2⟩ | ⟨h2, h3, heq2⟩ | ⟨h2, h3, heq2⟩ <;>
      rw [heq2] <;> dsimp only at h2 ⊢ <;> try dsimp only at h3
    · refine guarded_linear c a .ok _ _ 2 (by dsimp only; omega)
            (by
              intro p hp; simp at hp; subst hp
              exact ⟨by dsimp only; omega, by dsimp only; omega⟩)
            (by
              intro j hj1 hj2
              have hj : j = a ∨ j = a + 1 := by omega
              rcases hj with rfl | rfl
              exacts [h0, h1])
            (by
              intro p hp; simp at hp; subst hp; dsimp only; omega)
            (Or.inl rfl)
    · refine guarded_linear c a .ok _ _ 3 (by dsimp only; omega)
            (by
              intro p hp; simp at hp; rcases hp with rfl | rfl <;>
                exact ⟨by dsimp only; omega, by dsimp only; omega⟩)
            (by
              intro j hj1 hj2
              have hj : j = a ∨ j = a + 1 ∨ j = a + 2 := by omega
              rcases hj with rfl | rfl | rfl
              exacts [h0, h1, h2])
            (by
              intro p hp; simp at hp; rcases hp with rfl | rfl <;> dsimp only <;> omega)
            (Or.inl rfl)
    · rcases hw : c.waitRes (a + 2) with _ | e <;> try dsimp only
      · rcases notryPrim_cases c .dropInner (fun _ => false) ⟨a + 4, rn⟩ with
          ⟨h4, heq4⟩ | ⟨h4, h5, heq4⟩ | ⟨h4, h5, heq4⟩ <;>
          rw [heq4] <;> dsimp only at h4 ⊢ <;> try dsimp only at h5
        · refine guarded_linear c a .ok _ _ 4 (by dsimp only; omega)
                (by
                  intro p hp; simp at hp; rcases hp with rfl | rfl <;>
                    exact ⟨by dsimp only; omega, by dsimp only; omega⟩)
                (by
                  intro j hj1 hj2
                  have hj : j = a ∨ j = a + 1 ∨ j = a + 2 ∨ j = a + 3 := by omega
                  rcases hj with rfl | rfl | rfl | rfl
                  exacts [h0, h1, h2, h3])
                (by
                  intro p hp; simp at hp; rcases hp with rfl | rfl <;> dsimp only <;> omega)
                (Or.inl rfl)
        · refine guarded_linear c a .ok _ _ 4 (by dsimp only; omega)
                (by
                  intro p hp; simp at hp; rcases hp with rfl | rfl | rfl <;>
                    exact ⟨by dsimp only; omega, by dsimp only; omega⟩)
                (by
                  intro j hj1 hj2
                  have hj : j = a ∨ j = a + 1 ∨ j = a + 2 ∨ j = a + 3 := by omega
                  rcases hj with rfl | rfl | rfl | rfl
                  exacts [h0, h1, h2, h3])
                (by
                  intro p hp; simp at hp; rcases hp with rfl | rfl | rfl <;> dsimp only <;> omega)
                (Or.inl rfl)
        · refine guarded_linear c a .ok _ _ 4 (by dsimp only; omega)
                (by
                  intro p hp; simp at hp; rcases hp with rfl | rfl | rfl <;>
                    exact ⟨by dsimp only; omega, by dsimp only; omega⟩)
                (by
                  intro j hj1 hj2
                  have hj : j = a ∨ j = a + 1 ∨ j = a + 2 ∨ j = a + 3 := by omega
                  rcases hj with rfl | rfl | rfl | rfl
                  exacts [h0, h1, h2, h3])
                (by
                  intro p hp; simp at hp; rcases hp with rfl | rfl | rfl <;> dsimp only <;> omega)
                (Or.inl rfl)
      · refine guarded_linear c a (.err e) _ _ 4 (by dsimp only; omega)
              (by
                intro p hp; simp at hp; rcases hp with rfl | rfl <;>
                  exact ⟨by dsimp only; omega, by dsimp only; omega⟩)
              (by
                intro j hj1 hj2
                have hj : j = a ∨ j = a + 1 ∨ j = a + 2 ∨ j = a + 3 := by omega
                rcases hj with rfl | rfl | rfl | rfl
                exacts [h0, h1, h2, h3])
              (by
                intro p hp; simp at hp; rcases hp with rfl | rfl <;> dsimp only <;> omega)
              (Or.inr (by dsimp only; omega))

theorem guarded_destroySeq (c : WorkerCtx) (rn : Bool) (s1 : WSt) :
    Guarded c s1.idx (destroySeq c rn s1) := by
  obtain ⟨a, b⟩ := s1
  unfold destroySeq
  cases rn <;> dsimp only
  · refine guarded_linear c a .panicked _ _ 0 (by dsimp only; omega)
          (by simp)
          (by intro j hj1 hj2; omega)
          (by simp)
          (Or.inr (by dsimp only; omega))
  · rcases notryPrim_cases c .kill id ⟨a, b⟩ with
      ⟨h0, heq⟩ | ⟨h0, h1, heq⟩ | ⟨h0, h1, heq⟩ <;>
      rw [heq] <;> simp only [id_eq] <;> dsimp only at h0 ⊢ <;>
        try dsimp only at h1
    · refine guarded_linear c a .ok _ _ 0 (by dsimp only; omega)
            (by simp)
            (by intro j hj1 hj2; omega)
            (by simp)
            (Or.inl rfl)
    · refine guarded_linear c a .ok _ _ 1 (by dsimp only; omega)
            (by
              intro p hp; simp at hp; subst hp
              exact ⟨by dsimp only; omega, by dsimp only; omega⟩)
            (by
              intro j hj1 hj2
              have hj : j = a := by omega
              rcases hj with rfl
              exacts [h0])
            (by
              intro p hp; simp at hp; subst hp; dsimp only; omega)
            (Or.inl rfl)
    · rcases notryWait_cases c ⟨a + 2, b⟩ with
        ⟨h2, heq2⟩ | ⟨h2, h3, heq2⟩ | ⟨h2, h3, heq2⟩ <;>
        rw [heq2] <;> dsimp only at h2 ⊢ <;> try dsimp only at h3
      · refine guarded_linear c a .ok _ _ 2 (by dsimp only; omega)
              (by
                intro p hp; simp at hp; subst hp
                exact ⟨by dsimp only; omega, by dsimp only; omega⟩)
              (by
                intro j hj1 hj2
                have hj : j = a ∨ j = a + 1 := by omega
                rcases hj with rfl | rfl
                exacts [h0, h1])
              (by
                intro p hp; simp at hp; subst hp; dsimp only; omega)
              (Or.inl rfl)
      · refine guarded_linear c a .ok _ _ 3 (by dsimp only; omega)
              (by
                intro p hp; simp at hp; rcases hp with rfl | rfl <;>
                  exact ⟨by dsimp only; omega, by dsimp only; omega⟩)
              (by
                intro j hj1 hj2
                have hj : j = a ∨ j = a + 1 ∨ j = a + 2 := by omega
                rcases hj with rfl | rfl | rfl
                exacts [h0, h1, h2])
              (by
                intro p hp; simp at hp; rcases hp with rfl | rfl <;> dsimp only <;> omega)
              (Or.inl rfl)
      · rcases hw : c.waitRes (a + 2) with _ | e <;> try dsimp only
        · rcases notryPrim_cases c .dropInner (fun _ => false) ⟨a + 4, b⟩ with
            ⟨h4, heq4⟩ | ⟨h4, h5, heq4⟩ | ⟨h4, h5, heq4⟩ <;>
            rw [heq4] <;> dsimp only at h4 ⊢ <;> try dsimp only at h5
          · refine guarded_linear c a .ok _ _ 4 (by dsimp only; omega)
                  (by
                    intro p hp; simp at hp; rcases hp with rfl | rfl <;>
                      exact ⟨by dsimp only; omega, by dsimp only; omega⟩)
                  (by
                    intro j hj1 hj2
                    have hj : j = a ∨ j = a + 1 ∨ j = a + 2 ∨ j = a + 3 := by omega
                    rcases hj with rfl | rfl | rfl | rfl
                    exacts [h0, h1, h2, h3])
                  (by
                    intro p hp; simp at hp; rcases hp with rfl | rfl <;> dsimp only <;> omega)
                  (Or.inl rfl)
          · refine guarded_linear c a .ok _ _ 5 (by dsimp only; omega)
                  (by
                    intro p hp; simp at hp; rcases hp with rfl | rfl | rfl <;>
                      exact ⟨by dsimp only; omega, by dsimp only; omega⟩)
                  (by
                    intro j hj1 hj2
                    have hj : j = a ∨ j = a + 1 ∨ j = a + 2 ∨ j = a + 3 ∨ j = a + 4 := by omega
                    rcases hj with rfl | rfl | rfl | rfl | rfl
                    exacts [h0, h1, h2, h3, h4])
                  (by
                    intro p hp; simp at hp; rcases hp with rfl | rfl | rfl <;> dsimp only <;> omega)
                  (Or.inl rfl)
          · refine guarded_linear c a .panicked _ _ 6 (by dsimp only; omega)
                  (by
                    intro p hp; simp at hp; rcases hp with rfl | rfl | rfl <;>
                      exact ⟨by dsimp only; omega, by dsimp only; omega⟩)
                  (by
                    intro j hj1 hj2
                    have hj : j = a ∨ j = a + 1 ∨ j = a + 2 ∨ j = a + 3 ∨ j = a + 4 ∨ j = a + 5 := by omega
                    rcases hj with rfl | rfl | rfl | rfl | rfl | rfl
                    exacts [h0, h1, h2, h3, h4, h5])
                  (by
                    intro p hp; simp at hp; rcases hp with rfl | rfl | rfl <;> dsimp only <;> omega)
                  (Or.inr (by dsimp only; omega))
        · refine guarded_linear c a (.err e) _ _ 4 (by dsimp only; omega)
                (by
                  intro p hp; simp at hp; rcases hp with rfl | rfl <;>
                    exact ⟨by dsimp only; omega, by dsimp only; omega⟩)
                (by
                  intro j hj1 hj2
                  have hj : j = a ∨ j = a + 1 ∨ j = a + 2 ∨ j = a + 3 := by omega
                  rcases hj with rfl | rfl | rfl | rfl
                  exacts [h0, h1, h2, h3])
                (by
                  intro p hp; simp at hp; rcases hp with rfl | rfl <;> dsimp only <;> omega)
                (Or.inr (by dsimp only; omega))

theorem guarded_preAbortAt (c : WorkerCtx) (a : Nat) (rn : Bool) :
    Guarded c a (.ok, ⟨a + 1, rn⟩, []) :=
  guarded_linear c a .ok ⟨a + 1, rn⟩ [] 0 (by dsimp only; omega) (by simp)
    (by intro j hj1 hj2; omega) (by simp) (Or.inl rfl)

theorem guarded_abort2At (c : WorkerCtx) (a : Nat) (rn : Bool) (e : Eff) :
    Guarded c a (.ok, ⟨a + 2, rn⟩, [(a, e)]) := by
  refine guarded_linear c a .ok _ _ 0 (by dsimp only; omega) ?_
    (by intro j hj1 hj2; omega) ?_ (Or.inl rfl)
  · intro p hp; simp at hp; subst hp
    exact ⟨by dsimp only; omega, by dsimp only; omega⟩
  · intro p hp; simp at hp; subst hp; dsimp only; omega

/-- Glueing the `notry!(is_some)` prelude onto a guarded arm. -/
theorem guarded_step (c : WorkerCtx) (s : WSt)
    (t : AResult × WSt × List (Nat × Eff))
    (h0 : c.reads s.idx = c.gen) (h1 : c.reads (s.idx + 1) = c.gen)
    (ht : Guarded c (s.idx + 2) t) :
    Guarded c s.idx (t.1, t.2.1, (s.idx, Eff.isSome) :: t.2.2) := by
  obtain ⟨ht1, ht2, ht3, ht4⟩ := ht
  refine ⟨?_, ?_, ?_, ?_⟩
  · dsimp only; omega
  · intro p hp
    dsimp only
    simp at hp
    rcases hp with rfl | hp
    · exact ⟨le_refl _, by omega⟩
    · have hh := ht2 p hp
      exact ⟨by omega, by omega⟩
  · rintro ⟨j, hj1, hj2, hj3⟩
    dsimp only at hj2
    rcases Nat.lt_or_ge j (s.idx + 2) with hj | hj
    · exfalso
      have hje : j = s.idx ∨ j = s.idx + 1 := by omega
      rcases hje with rfl | rfl
      exacts [hj3 h0, hj3 h1]
    · exact ht3 ⟨j, hj, hj2, hj3⟩
  · intro p hp j hjl hjr
    simp at hp
    rcases hp with rfl | hp
    · dsimp only at hjr
      exfalso; omega
    · rcases Nat.lt_or_ge j (s.idx + 2) with hj | hj
      · have hje : j = s.idx ∨ j = s.idx + 1 := by omega
        rcases hje with rfl | rfl
        exacts [h0, h1]
      · exact ht4 p hp j hj hjr

/-- Glueing the `notry!` wrapper (pre-check at `a`, inner run from `a + 1`,
post-check and result disposition in `applyFinish`). -/
theorem guarded_applyFinish (c : WorkerCtx) (a : Nat)
    (t : AResult × WSt × List (Nat × Eff))
    (h0 : c.reads a = c.gen) (ht : Guarded c (a + 1) t) :
    Guarded c a (applyFinish c t) := by
  obtain ⟨r, s2, es2⟩ := t
  obtain ⟨ht1, ht2, ht3, ht4⟩ := ht
  dsimp only at ht1 ht2 ht3 ht4
  have hlow : ∀ j, a ≤ j → j < a + 1 → c.reads j = c.gen := by
    intro j hj1 hj2
    have hje : j = a := by omega
    subst hje; exact h0
  cases r
  case panicked =>
    show Guarded c a (.panicked, s2, es2)
    refine ⟨by dsimp only; omega, ?_, ?_, ?_⟩
    · intro p hp
      have hh := ht2 p hp
      exact ⟨by omega, by dsimp only; omega⟩
    · rintro ⟨j, hj1, hj2, hj3⟩
      exfalso
      dsimp only at hj2
      rcases Nat.lt_or_ge j (a + 1) with hj | hj
      · exact hj3 (hlow j hj1 hj)
      · exact absurd (ht3 ⟨j, hj, hj2, hj3⟩) (by simp)
    · intro p hp j hj1 hj2
      rcases Nat.lt_or_ge j (a + 1) with hj | hj
      · exact hlow j hj1 hj
      · exact ht4 p hp j hj hj2
  case err e =>
    show Guarded c a
      (if c.reads s2.idx = c.gen then
        (.err e, ⟨s2.idx + 1, s2.running⟩, es2)
      else (.ok, ⟨s2.idx + 1, s2.running⟩, es2))
    by_cases h2 : c.reads s2.idx = c.gen <;>
      [rw [if_pos h2]; rw [if_neg h2]] <;>
      refine ⟨by dsimp only; omega, ?_, ?_, ?_⟩
    · intro p hp
      have hh := ht2 p hp
      exact ⟨by omega, by dsimp only; omega⟩
    · rintro ⟨j, hj1, hj2, hj3⟩
      exfalso
      dsimp only at hj2
      rcases Nat.lt_or_ge j (a + 1) with hj | hj
      · exact hj3 (hlow j hj1 hj)
      · rcases Nat.lt_or_ge j s2.idx with hj2b | hj2b
        · exact absurd (ht3 ⟨j, hj, hj2b, hj3⟩) (by simp)
        · have hje : j = s2.idx := by omega
          subst hje
          exact hj3 h2
    · intro p hp j hj1 hj2
      rcases Nat.lt_or_ge j (a + 1) with hj | hj
      · exact hlow j hj1 hj
      · exact ht4 p hp j hj hj2
    · intro p hp
      have hh := ht2 p hp
      exact ⟨by omega, by dsimp only; omega⟩
    · intro _; rfl
    · intro p hp j hj1 hj2
      rcases Nat.lt_or_ge j (a + 1) with hj | hj
      · exact hlow j hj1 hj
      · exact ht4 p hp j hj hj2
  case ok =>
    show Guarded c a
      (if c.reads s2.idx = c.gen then
        (.ok, ⟨s2.idx + 1, s2.running⟩, es2)
      else (.ok, ⟨s2.idx + 1, s2.running⟩, es2))
    by_cases h2 : c.reads s2.idx = c.gen <;>
      [rw [if_pos h2]; rw [if_neg h2]] <;>
      refine ⟨by dsimp only; omega, ?_, fun _ => rfl, ?_⟩ <;>
      first
      | (intro p hp
         have hh := ht2 p hp
         exact ⟨by omega, by dsimp only; omega⟩)
      | (intro p hp j hj1 hj2
         rcases Nat.lt_or_ge j (a + 1) with hj | hj
         · exact hlow j hj1 hj
         · exact ht4 p hp j hj hj2)

theorem raceFinish_eq (t : AResult × WSt × List (Nat × Eff)) :
    raceFinish t = t := by
  rcases t with ⟨r, s2, es⟩
  cases r <;> rfl

/-- The second half of the `Both` arm: effects carried over from the first
half are tagged strictly before `s4.idx`, all checks up to there passed, and
the second limb runs under a fresh `notry!` wrapper. -/
theorem guarded_bothSecond (c : WorkerCtx) (a : Nat) (s4 : WSt)
    (es : List (Nat × Eff)) (k : WSt → AResult × WSt × List (Nat × Eff))
    (hk : ∀ s' : WSt, Guarded c s'.idx (k s'))
    (hidx4 : a ≤ s4.idx)
    (hgd : ∀ j, a ≤ j → j < s4.idx → c.reads j = c.gen)
    (htags : ∀ p ∈ es, a ≤ p.1 ∧ p.1 < s4.idx) :
    Guarded c a
      (if c.reads s4.idx = c.gen then
        ((applyFinish c (k ⟨s4.idx + 1, s4.running⟩)).1,
          (applyFinish c (k ⟨s4.idx + 1, s4.running⟩)).2.1,
          es ++ (applyFinish c (k ⟨s4.idx + 1, s4.running⟩)).2.2)
      else (.ok, ⟨s4.idx + 1, s4.running⟩, es)) := by
  by_cases h4 : c.reads s4.idx = c.gen <;> [rw [if_pos h4]; rw [if_neg h4]]
  · have hfin : Guarded c s4.idx (applyFinish c (k ⟨s4.idx + 1, s4.running⟩)) :=
      guarded_applyFinish c s4.idx (k ⟨s4.idx + 1, s4.running⟩) h4
        (hk ⟨s4.idx + 1, s4.running⟩)
    obtain ⟨hf1, hf2, hf3, hf4⟩ := hfin
    refine ⟨by dsimp only; omega, ?_, ?_, ?_⟩
    · intro p hp
      dsimp only
      simp at hp
      rcases hp with hp | hp
      · have hh := htags p hp
        omega
      · have hh := hf2 p hp
        exact ⟨by omega, by omega⟩
    · rintro ⟨j, hj1, hj2, hj3⟩
      dsimp only at hj2
      rcases Nat.lt_or_ge j s4.idx with hj | hj
      · exact absurd (hgd j hj1 hj) hj3
      · exact hf3 ⟨j, hj, hj2, hj3⟩
    · intro p hp j hj1 hj2
      simp at hp
      rcases hp with hp | hp
      · have hh := htags p hp
        exact hgd j hj1 (by omega)
      · rcases Nat.lt_or_ge j s4.idx with hj | hj
        · exact hgd j hj1 hj
        · exact hf4 p hp j hj hj2
  · refine ⟨by dsimp only; omega, ?_, fun _ => rfl, ?_⟩
    · intro p hp
      have hh := htags p hp
      exact ⟨by omega, by dsimp only; omega⟩
    · intro p hp j hj1 hj2
      have hh := htags p hp
      exact hgd j hj1 (by omega)

/-- The full `Both` arm, from its pre-check at `a`. -/
theorem guarded_both (c : WorkerCtx)
    (hpersist : ∀ x y, x ≤ y → c.reads x ≠ c.gen → c.reads y ≠ c.gen)
    (a : Nat) (t1 : AResult × WSt × List (Nat × Eff))
    (k : WSt → AResult × WSt × List (Nat × Eff))
    (h0 : c.reads a = c.gen)
    (ht1 : Guarded c (a + 1) t1)
    (hk : ∀ s' : WSt, Guarded c s'.idx (k s')) :
    Guarded c a
      (match bothMiddle c t1 with
       | .inl done => done
       | .inr (s4, es) =>
         if c.reads s4.idx = c.gen then
           ((applyFinish c (k ⟨s4.idx + 1, s4.running⟩)).1,
             (applyFinish c (k ⟨s4.idx + 1, s4.running⟩)).2.1,
             es ++ (applyFinish c (k ⟨s4.idx + 1, s4.running⟩)).2.2)
         else (.ok, ⟨s4.idx + 1, s4.running⟩, es)) := by
  obtain ⟨r1, s2, es2⟩ := t1
  obtain ⟨ht1a, ht1b, ht1c, ht1d⟩ := ht1
  dsimp only at ht1a ht1b ht1c ht1d
  have hlow : ∀ j, a ≤ j → j < a + 1 → c.reads j = c.gen := by
    intro j hj1 hj2
    have hje : j = a := by omega
    subst hje; exact h0
  cases r1
  case panicked =>
    dsimp only [bothMiddle]
    refine ⟨by dsimp only; omega, ?_, ?_, ?_⟩
    · intro p hp
      have hh := ht1b p hp
      exact ⟨by omega, by dsimp only; omega⟩
    · rintro ⟨j, hj1, hj2, hj3⟩
      exfalso
      dsimp only at hj2
      rcases Nat.lt_or_ge j (a + 1) with hj | hj
      · exact hj3 (hlow j hj1 hj)
      · exact absurd (ht1c ⟨j, hj, hj2, hj3⟩) (by simp)
    · intro p hp j hj1 hj2
      rcases Nat.lt_or_ge j (a + 1) with hj | hj
      · exact hlow j hj1 hj
      · exact ht1d p hp j hj hj2
  case ok =>
    dsimp only [bothMiddle]
    by_cases h2 : c.reads s2.idx = c.gen <;>
      [rw [if_pos h2]; rw [if_neg h2]] <;> try dsimp only
    · have hgd : ∀ j, a ≤ j → j < s2.idx + 1 → c.reads j = c.gen := by
        intro j _ hj2
        by_contra hne
        exact (hpersist j s2.idx (by omega) hne) h2
      exact guarded_bothSecond c a ⟨s2.idx + 1, s2.running⟩ es2 k hk
        (by dsimp only; omega) (by dsimp only; exact hgd)
        (fun p hp => by
          have hh := ht1b p hp
          exact ⟨by omega, by dsimp only; omega⟩)
    · refine ⟨by dsimp only; omega, ?_, fun _ => rfl, ?_⟩
      · intro p hp
        have hh := ht1b p hp
        exact ⟨by omega, by dsimp only; omega⟩
      · intro p hp j hj1 hj2
        rcases Nat.lt_or_ge j (a + 1) with hj | hj
        · exact hlow j hj1 hj
        · exact ht1d p hp j hj hj2
  case err e1 =>
    dsimp only [bothMiddle]
    by_cases h2 : c.reads s2.idx = c.gen <;>
      [rw [if_pos h2]; rw [if_neg h2]] <;> try dsimp only
    · have hgd : ∀ j, a ≤ j → j < s2.idx + 1 → c.reads j = c.gen := by
        intro j _ hj2
        by_contra hne
        exact (hpersist j s2.idx (by omega) hne) h2
      rcases notryPrim_cases c (.sendError e1) id ⟨s2.idx + 1, s2.running⟩ with
        ⟨h3, heq⟩ | ⟨h3, h4, heq⟩ | ⟨h3, h4, heq⟩ <;>
        rw [heq] <;> simp only [id_eq] <;> dsimp only at h3 ⊢ <;>
          try dsimp only at h4
      · refine ⟨by dsimp only; omega, ?_, fun _ => rfl, ?_⟩
        · intro p hp
          simp at hp
          have hh := ht1b p hp
          exact ⟨by omega, by dsimp only; omega⟩
        · intro p hp j hj1 hj2
          simp at hp
          have hh := ht1b p hp
          exact hgd j hj1 (by omega)
      · refine ⟨by dsimp only; omega, ?_, fun _ => rfl, ?_⟩
        · intro p hp
          simp at hp
          rcases hp with hp | rfl
          · have hh := ht1b p hp
            exact ⟨by omega, by dsimp only; omega⟩
          · exact ⟨by omega, by dsimp only; omega⟩
        · intro p hp j hj1 hj2
          simp at hp
          rcases hp with hp | rfl
          · have hh := ht1b p hp
            exact hgd j hj1 (by omega)
          · dsimp only at hj2
            exact hgd j hj1 (by omega)
      · have hgd4 : ∀ j, a ≤ j → j < s2.idx + 3 → c.reads j = c.gen := by
          intro j hj1 hj2
          rcases Nat.lt_or_ge j (s2.idx + 1) with hj | hj
          · exact hgd j hj1 hj
          · have hje : j = s2.idx + 1 ∨ j = s2.idx + 2 := by omega
            rcases hje with rfl | rfl
            exacts [h3, h4]
        exact guarded_bothSecond c a ⟨s2.idx + 1 + 2, s2.running⟩
          (es2 ++ [(s2.idx + 1, .sendError e1)]) k hk
          (by dsimp only; omega)
          (by dsimp only; intro j hj1 hj2; exact hgd4 j hj1 (by omega))
          (fun p hp => by
            simp at hp
            rcases hp with hp | rfl
            · have hh := ht1b p hp
              exact ⟨by omega, by dsimp only; omega⟩
            · exact ⟨by omega, by dsimp only; omega⟩)
    · refine ⟨by dsimp only; omega, ?_, fun _ => rfl, ?_⟩
      · intro p hp
        have hh := ht1b p hp
        exact ⟨by omega, by dsimp only; omega⟩
      · intro p hp j hj1 hj2
        rcases Nat.lt_or_ge j (a + 1) with hj | hj
        · exact hlow j hj1 hj
        · exact ht1d p hp j hj hj2

/-- The guard invariant holds of every `apply` run, provided a counter
mismatch persists (the shared counter only moves away from a superseded
worker's generation). -/
theorem apply_guarded (c : WorkerCtx)
    (hpersist : ∀ x y, x ≤ y → c.reads x ≠ c.gen → c.reads y ≠ c.gen) :
    ∀ (o : Outcome) (s : WSt), Guarded c s.idx (apply c o s) := by
  intro o
  induction o with
  | doNothing =>
    intro s
    rw [apply.eq_def]
    by_cases h0 : c.reads s.idx = c.gen
    · rw [if_pos h0]
      by_cases h1 : c.reads (s.idx + 1) = c.gen
      · rw [if_pos h1]
        dsimp only
        exact guarded_step c s _ h0 h1
          (guarded_stay c .ok ⟨s.idx + 2, s.running⟩ [] (by simp))
      · rw [if_neg h1]
        exact guarded_abort2At c s.idx s.running .isSome
    · rw [if_neg h0]
      exact guarded_preAbortAt c s.idx s.running
  | exit =>
    intro s
    rw [apply.eq_def]
    by_cases h0 : c.reads s.idx = c.gen
    · rw [if_pos h0]
      by_cases h1 : c.reads (s.idx + 1) = c.gen
      · rw [if_pos h1]
        dsimp only
        exact guarded_step c s _ h0 h1
          (guarded_stay c (.err .exit) ⟨s.idx + 2, s.running⟩ [] (by simp))
      · rw [if_neg h1]
        exact guarded_abort2At c s.idx s.running .isSome
    · rw [if_neg h0]
      exact guarded_preAbortAt c s.idx s.running
  | stop =>
    intro s
    rw [apply.eq_def]
    by_cases h0 : c.reads s.idx = c.gen
    · rw [if_pos h0]
      by_cases h1 : c.reads (s.idx + 1) = c.gen
      · rw [if_pos h1]
        dsimp only
        by_cases hr : s.running = true <;>
          [rw [if_pos hr]; rw [if_neg hr]]
        · exact guarded_step c s _ h0 h1 (guarded_stopSeq c ⟨s.idx + 2, s.running⟩)
        · exact guarded_step c s _ h0 h1
            (guarded_stay c .ok ⟨s.idx + 2, s.running⟩ [] (by simp))
      · rw [if_neg h1]
        exact guarded_abort2At c s.idx s.running .isSome
    · rw [if_neg h0]
      exact guarded_preAbortAt c s.idx s.running
  | destroy =>
    intro s
    rw [apply.eq_def]
    by_cases h0 : c.reads s.idx = c.gen
    · rw [if_pos h0]
      by_cases h1 : c.reads (s.idx + 1) = c.gen
      · rw [if_pos h1]
        dsimp only
        exact guarded_step c s _ h0 h1
          (guarded_destroySeq c s.running ⟨s.idx + 2, s.running⟩)
      · rw [if_neg h1]
        exact guarded_abort2At c s.idx s.running .isSome
    · rw [if_neg h0]
      exact guarded_preAbortAt c s.idx s.running
  | wait =>
    intro s
    rw [apply.eq_def]
    by_cases h0 : c.reads s.idx = c.gen
    · rw [if_pos h0]
      by_cases h1 : c.reads (s.idx + 1) = c.gen
      · rw [if_pos h1]
        dsimp only
        by_cases hr : s.running = true <;>
          [rw [if_pos hr]; rw [if_neg hr]]
        · exact guarded_step c s _ h0 h1 (guarded_waitSeq c ⟨s.idx + 2, s.running⟩)
        · exact guarded_step c s _ h0 h1
            (guarded_stay c .ok ⟨s.idx + 2, s.running⟩ [] (by simp))
      · rw [if_neg h1]
        exact guarded_abort2At c s.idx s.running .isSome
    · rw [if_neg h0]
      exact guarded_preAbortAt c s.idx s.running
  | signal sig =>
    intro s
    rw [apply.eq_def]
    by_cases h0 : c.reads s.idx = c.gen
    · rw [if_pos h0]
      by_cases h1 : c.reads (s.idx + 1) = c.gen
      · rw [if_pos h1]
        dsimp only
        by_cases hr : s.running = true <;>
          [rw [if_pos hr]; rw [if_neg hr]]
        · exact guarded_step c s _ h0 h1 (guarded_signalSeq c sig ⟨s.idx + 2, s.running⟩)
        · exact guarded_step c s _ h0 h1
            (guarded_stay c .ok ⟨s.idx + 2, s.running⟩ [] (by simp))
      · rw [if_neg h1]
        exact guarded_abort2At c s.idx s.running .isSome
    · rw [if_neg h0]
      exact guarded_preAbortAt c s.idx s.running
  | start =>
    intro s
    rw [apply.eq_def]
    by_cases h0 : c.reads s.idx = c.gen
    · rw [if_pos h0]
      by_cases h1 : c.reads (s.idx + 1) = c.gen
      · rw [if_pos h1]
        dsimp only
        exact guarded_step c s _ h0 h1
          (guarded_startSeq c false ⟨s.idx + 2, s.running⟩)
      · rw [if_neg h1]
        exact guarded_abort2At c s.idx s.running .isSome
    · rw [if_neg h0]
      exact guarded_preAbortAt c s.idx s.running
  | startHook h =>
    intro s
    rw [apply.eq_def]
    by_cases h0 : c.reads s.idx = c.gen
    · rw [if_pos h0]
      by_cases h1 : c.reads (s.idx + 1) = c.gen
      · rw [if_pos h1]
        dsimp only
        exact guarded_step c s _ h0 h1
          (guarded_startSeq c true ⟨s.idx + 2, s.running⟩)
      · rw [if_neg h1]
        exact guarded_abort2At c s.idx s.running .isSome
    · rw [if_neg h0]
      exact guarded_preAbortAt c s.idx s.running
  | sleep d =>
    intro s
    rw [apply.eq_def]
    by_cases h0 : c.reads s.idx = c.gen
    · rw [if_pos h0]
      by_cases h1 : c.reads (s.idx + 1) = c.gen
      · rw [if_pos h1]
        dsimp only
        exact guarded_step c s _ h0 h1
          (guarded_sleepSeq c d ⟨s.idx + 2, s.running⟩)
      · rw [if_neg h1]
        exact guarded_abort2At c s.idx s.running .isSome
    · rw [if_neg h0]
      exact guarded_preAbortAt c s.idx s.running
  | clear =>
    intro s
    rw [apply.eq_def]
    by_cases h0 : c.reads s.idx = c.gen
    · rw [if_pos h0]
      by_cases h1 : c.reads (s.idx + 1) = c.gen
      · rw [if_pos h1]
        dsimp only
        exact guarded_step c s _ h0 h1
          (guarded_clearSeq c ⟨s.idx + 2, s.running⟩)
      · rw [if_neg h1]
        exact guarded_abort2At c s.idx s.running .isSome
    · rw [if_neg h0]
      exact guarded_preAbortAt c s.idx s.running
  | reset =>
    intro s
    rw [apply.eq_def]
    by_cases h0 : c.reads s.idx = c.gen
    · rw [if_pos h0]
      by_cases h1 : c.reads (s.idx + 1) = c.gen
      · rw [if_pos h1]
        dsimp only
        exact guarded_step c s _ h0 h1
          (guarded_resetArm c ⟨s.idx + 2, s.running⟩)
      · rw [if_neg h1]
        exact guarded_abort2At c s.idx s.running .isSome
    · rw [if_neg h0]
      exact guarded_preAbortAt c s.idx s.running
  | hook h =>
    intro s
    rw [apply.eq_def]
    by_cases h0 : c.reads s.idx = c.gen
    · rw [if_pos h0]
      by_cases h1 : c.reads (s.idx + 1) = c.gen
      · rw [if_pos h1]
        dsimp only
        exact guarded_step c s _ h0 h1
          (guarded_stay c .ok ⟨s.idx + 2, s.running⟩
            [(s.idx + 2, Eff.hook h)] (by simp))
      · rw [if_neg h1]
        exact guarded_abort2At c s.idx s.running .isSome
    · rw [if_neg h0]
      exact guarded_preAbortAt c s.idx s.running
  | ifRunning whenRunning otherwise ihw iho =>
    intro s
    rw [apply.eq_def]
    by_cases h0 : c.reads s.idx = c.gen
    · rw [if_pos h0]
      by_cases h1 : c.reads (s.idx + 1) = c.gen
      · rw [if_pos h1]
        dsimp only
        by_cases hr : s.running = true <;>
          [rw [if_pos hr]; rw [if_neg hr]] <;>
          by_cases h2 : c.reads (s.idx + 2) = c.gen <;>
            [rw [if_pos h2]; rw [if_neg h2]; rw [if_pos h2]; rw [if_neg h2]]
        · exact guarded_step c s _ h0 h1
            (guarded_applyFinish c (s.idx + 2) _ h2
              (ihw ⟨s.idx + 2 + 1, s.running⟩))
        · exact guarded_step c s _ h0 h1 (guarded_preAbortAt c (s.idx + 2) s.running)
        · exact guarded_step c s _ h0 h1
            (guarded_applyFinish c (s.idx + 2) _ h2
              (iho ⟨s.idx + 2 + 1, s.running⟩))
        · exact guarded_step c s _ h0 h1 (guarded_preAbortAt c (s.idx + 2) s.running)
      · rw [if_neg h1]
        exact guarded_abort2At c s.idx s.running .isSome
    · rw [if_neg h0]
      exact guarded_preAbortAt c s.idx s.running
  | both one two ih1 ih2 =>
    intro s
    rw [apply.eq_def]
    by_cases h0 : c.reads s.idx = c.gen
    · rw [if_pos h0]
      by_cases h1 : c.reads (s.idx + 1) = c.gen
      · rw [if_pos h1]
        dsimp only
        by_cases h2 : c.reads (s.idx + 2) = c.gen <;>
          [rw [if_pos h2]; rw [if_neg h2]]
        · exact guarded_step c s _ h0 h1
            (guarded_both c hpersist (s.idx + 2)
              (apply c one ⟨s.idx + 2 + 1, s.running⟩) (apply c two) h2
              (ih1 ⟨s.idx + 2 + 1, s.running⟩) (fun s' => ih2 s'))
        · exact guarded_step c s _ h0 h1 (guarded_preAbortAt c (s.idx + 2) s.running)
      · rw [if_neg h1]
        exact guarded_abort2At c s.idx s.running .isSome
    · rw [if_neg h0]
      exact guarded_preAbortAt c s.idx s.running
  | race one two ih1 ih2 =>
    intro s
    rw [apply.eq_def]
    by_cases h0 : c.reads s.idx = c.gen
    · rw [if_pos h0]
      by_cases h1 : c.reads (s.idx + 1) = c.gen
      · rw [if_pos h1]
        dsimp only
        by_cases hw : c.race (s.idx + 2) = true <;>
          [rw [if_pos hw]; rw [if_neg hw]]
        · exact guarded_step c s _ h0 h1
            (by rw [raceFinish_eq]; exact ih1 ⟨s.idx + 2, s.running⟩)
        · exact guarded_step c s _ h0 h1
            (by rw [raceFinish_eq]; exact ih2 ⟨s.idx + 2, s.running⟩)
      · rw [if_neg h1]
        exact guarded_abort2At c s.idx s.running .isSome
    · rw [if_neg h0]
      exact guarded_preAbortAt c s.idx s.running

/-- [C6] The generation guard: the shared counter is compared against the
worker's generation before and after every awaited sub-operation (the
`notry!` wrappers in the model), and — since the counter is monotone and
never falls back below the worker's generation — whenever a comparison at
some read index `j` observes a mismatch, `apply` returns success and no
side-effecting sub-operation is invoked after that check point (every
emitted effect is tagged at or before `j`). -/
theorem c6_generation_guard (c : WorkerCtx)
    (hmono : ∀ i j, i ≤ j → c.reads i ≤ c.reads j)
    (hlb : ∀ i, c.gen ≤ c.reads i)
    (o : Outcome) (s : WSt) (j : Nat)
    (hij : s.idx ≤ j) (hlt : j < (apply c o s).2.1.idx)
    (hbad : c.reads j ≠ c.gen) :
    (apply c o s).1 = .ok ∧ ∀ p ∈ (apply c o s).2.2, p.1 ≤ j := by
  have hpersist : ∀ x y, x ≤ y → c.reads x ≠ c.gen → c.reads y ≠ c.gen := by
    intro x y hxy hne
    have ha := hlb x
    have hb := hmono x y hxy
    have hc := hlb y
    omega
  obtain ⟨hg1, hg2, hg3, hg4⟩ := apply_guarded c hpersist o s
  refine ⟨hg3 ⟨j, hij, hlt, hbad⟩, ?_⟩
  intro p hp
  by_contra hgt
  exact hbad (hg4 p hp j hij (by omega))

/-- [C6] Witness: a `Stop` run under `cCycled` aborts at the post-check of
`notry!(is_some)` — it returns success and emits nothing after read 1. -/
theorem c6_witness :
    (apply cCycled .stop ⟨0, true⟩).1 = .ok
    ∧ ∀ p ∈ (apply cCycled .stop ⟨0, true⟩).2.2, p.1 ≤ 1 :=
  c6_generation_guard cCycled
    (by intro i j hij; simp only [cCycled]; split <;> split <;> omega)
    (by intro i; simp only [cCycled]; split <;> omega)
    .stop ⟨0, true⟩ 1 (by decide) (by decide) (by decide)

end WXM
